import Mathlib

/-!
Verification development for the message-archive subsystem of the Gajim XMPP
client (modules `gajim/common/logger.py` and `gajim/common/modules/mam.py`).

The SQLite-backed `Logger` class is embedded as a pure state-passing model:
tables become lists of row structures, the auto-increment row ids become
explicit counters, and methods that can raise become `Except`-valued
functions.  `app.get_jid_from_account(account)` (an external configuration
lookup) is modelled by passing the account's bare JID string directly.
Timestamps are modelled as integers (seconds since the epoch).
-/

/-- KindConstant from gajim/common/const.py. -/
inductive KindConstant where
  | STATUS
  | GCSTATUS
  | GC_MSG
  | SINGLE_MSG_RECV
  | CHAT_MSG_RECV
  | SINGLE_MSG_SENT
  | CHAT_MSG_SENT
  | ERROR
deriving DecidableEq, Repr

/-- JIDConstant from gajim/common/const.py. -/
inductive JIDConstant where
  | NORMAL_TYPE
  | ROOM_TYPE
deriving DecidableEq, Repr

/-- A row of the `jids` table: jids(jid_id, jid, type). -/
structure JidRow where
  jid_id : Nat
  jid : String
  type : JIDConstant
deriving DecidableEq, Repr

/-- A row of the `logs` table (the columns used by the archive subsystem). -/
structure LogRow where
  log_line_id : Nat
  account_id : Nat
  jid_id : Nat
  contact_name : Option String
  time : Int
  kind : KindConstant
  message : Option String
  additional_data : Option String
  stanza_id : Option String
  message_id : Option String
deriving DecidableEq, Repr

/-- A row of the `unread_messages` table: (message_id, jid_id, shown default 0). -/
structure UnreadRow where
  message_id : Nat
  jid_id : Option Nat
  shown : Bool
deriving DecidableEq, Repr

/-- A row of the `last_archive_message` table. -/
structure ArchiveRow where
  jid_id : Nat
  last_mam_id : Option String
  oldest_mam_timestamp : Option Int
  last_muc_timestamp : Option Int
  sync_threshold : Option Int
deriving DecidableEq, Repr

/-- The state of the `Logger`: the in-memory jid cache `_jid_ids` plus the
four tables backing the archive subsystem, with explicit AUTOINCREMENT
counters. -/
structure LoggerState where
  jid_cache : List (String × JidRow)
  jids : List JidRow
  next_jid_id : Nat
  logs : List LogRow
  next_log_line_id : Nat
  unread : List UnreadRow
  archive : List ArchiveRow
deriving DecidableEq, Repr

/-- Lookup in the in-memory `_jid_ids` cache (a Python dict keyed by jid). -/
def cacheLookup (c : List (String × JidRow)) (jid : String) : Option JidRow :=
  (c.find? (fun p => p.1 = jid)).map (fun p => p.2)

/-- Row of the `jids` table with the given jid, if any
(`SELECT jid_id, jid, type FROM jids WHERE jid = ?`). -/
def tableLookup (st : LoggerState) (jid : String) : Option JidRow :=
  st.jids.find? (fun r => r.jid = jid)

/-- Logger.get_jid_id: kind GC_MSG/GCSTATUS forces ROOM_TYPE, any other
non-None kind forces NORMAL_TYPE; then cache lookup, table lookup
(caching the row), and finally an insert which needs a type. -/
def get_jid_id (st : LoggerState) (jid : String) (kind : Option KindConstant)
    (type_ : Option JIDConstant) : Except String (Nat × LoggerState) :=
  let type_ :=
    if kind = some .GC_MSG ∨ kind = some .GCSTATUS then some JIDConstant.ROOM_TYPE
    else if kind.isSome then some JIDConstant.NORMAL_TYPE
    else type_
  match cacheLookup st.jid_cache jid with
  | some row => .ok (row.jid_id, st)
  | none =>
    match tableLookup st jid with
    | some row =>
        .ok (row.jid_id, { st with jid_cache := (jid, row) :: st.jid_cache })
    | none =>
      match type_ with
      | none => .error "Unable to insert new JID because type is missing"
      | some t =>
        let row : JidRow := { jid_id := st.next_jid_id, jid := jid, type := t }
        .ok (st.next_jid_id,
             { st with
                jids := st.jids ++ [row]
                next_jid_id := st.next_jid_id + 1
                jid_cache := (jid, row) :: st.jid_cache })

/-- Logger.get_account_id; `app.get_jid_from_account(account)` is modelled by
taking the account's bare JID directly. -/
def get_account_id (st : LoggerState) (account_jid : String) :
    Except String (Nat × LoggerState) :=
  get_jid_id st account_jid none (some JIDConstant.NORMAL_TYPE)

/-- The id `get_jid_id` returns when the jid is already present (cache first,
then durable table); `none` when the jid is unknown. -/
def resolvedId (st : LoggerState) (jid : String) : Option Nat :=
  match cacheLookup st.jid_cache jid with
  | some row => some row.jid_id
  | none => (tableLookup st jid).map (fun r => r.jid_id)

/-- The jid is present in the in-memory cache or in the durable `jids` table. -/
def jidKnown (st : LoggerState) (jid : String) : Prop :=
  (resolvedId st jid).isSome

instance (st : LoggerState) (jid : String) : Decidable (jidKnown st jid) := by
  unfold jidKnown; infer_instance

/-- Logger.search_for_duplicate: window of 30 seconds either side of the
timestamp, then
`SELECT * FROM logs NATURAL JOIN jids WHERE jid = ? AND message = ?
 AND account_id = ? AND time BETWEEN ? AND ?`
(the natural join equates `logs.jid_id` with `jids.jid_id`). -/
def search_for_duplicate (st : LoggerState) (account_jid jid : String)
    (timestamp : Int) (msg : String) : Except String (Bool × LoggerState) := do
  let start_time := timestamp - 30
  let end_time := timestamp + 30
  let (account_id, st) ← get_account_id st account_jid
  let result := st.logs.find? (fun r =>
    (st.jids.any (fun j => j.jid_id = r.jid_id && j.jid = jid)) &&
    r.message = some msg &&
    r.account_id = account_id &&
    start_time ≤ r.time && r.time ≤ end_time)
  .ok (result.isSome, st)

/-- Logger.deduplicate_muc_message: window of 60 seconds either side, then
`SELECT * FROM logs NATURAL JOIN jids WHERE jid = ? AND contact_name = ?
 AND message_id = ? AND account_id = ? AND time BETWEEN ? AND ?`. -/
def deduplicate_muc_message (st : LoggerState) (account_jid jid resource : String)
    (timestamp : Int) (message_id : String) : Except String (Bool × LoggerState) := do
  let start_time := timestamp - 60
  let end_time := timestamp + 60
  let (account_id, st) ← get_account_id st account_jid
  let result := st.logs.find? (fun r =>
    (st.jids.any (fun j => j.jid_id = r.jid_id && j.jid = jid)) &&
    r.contact_name = some resource &&
    r.message_id = some message_id &&
    r.account_id = account_id &&
    start_time ≤ r.time && r.time ≤ end_time)
  .ok (result.isSome, st)

/-- Logger.find_stanza_id: collect the non-None ids, return False when there
are none; then, for group chats,
`SELECT stanza_id FROM logs WHERE stanza_id IN (ids) AND +jid_id = ?
 AND account_id = ? LIMIT 1`
and otherwise
`SELECT stanza_id FROM logs WHERE stanza_id IN (ids) AND account_id = ?
 AND kind != GC_MSG LIMIT 1`. -/
def find_stanza_id (st : LoggerState) (account_jid archive_jid : String)
    (stanza_id origin_id : Option String) (groupchat : Bool) :
    Except String (Bool × LoggerState) := do
  let ids := stanza_id.toList ++ origin_id.toList
  if ids.isEmpty then
    return (false, st)
  let type_ := if groupchat then JIDConstant.ROOM_TYPE else JIDConstant.NORMAL_TYPE
  let (archive_id, st) ← get_jid_id st archive_jid none (some type_)
  let (account_id, st) ← get_account_id st account_jid
  if groupchat then
    let result := st.logs.find? (fun r =>
      ids.any (fun i => r.stanza_id = some i) &&
      r.jid_id = archive_id &&
      r.account_id = account_id)
    return (result.isSome, st)
  else
    let result := st.logs.find? (fun r =>
      ids.any (fun i => r.stanza_id = some i) &&
      r.account_id = account_id &&
      r.kind ≠ KindConstant.GC_MSG)
    return (result.isSome, st)

/-- Logger.insert_into_logs: resolve jid and account ids, insert a `logs` row
with the next rowid, and if `unread` and the kind is CHAT_MSG_RECV also insert
an `unread_messages` row pairing the new rowid with the jid's id
(`shown` takes its schema default 0). -/
def insert_into_logs (st : LoggerState) (account_jid jid : String) (time_ : Int)
    (kind : KindConstant) (unread : Bool)
    (message contact_name additional_data stanza_id message_id : Option String) :
    Except String (Nat × LoggerState) := do
  let (jid_id, st) ← get_jid_id st jid (some kind) none
  let (account_id, st) ← get_account_id st account_jid
  let lastrowid := st.next_log_line_id
  let row : LogRow :=
    { log_line_id := lastrowid
      account_id := account_id
      jid_id := jid_id
      contact_name := contact_name
      time := time_
      kind := kind
      message := message
      additional_data := additional_data
      stanza_id := stanza_id
      message_id := message_id }
  let st := { st with logs := st.logs ++ [row], next_log_line_id := lastrowid + 1 }
  let st :=
    if unread && kind = KindConstant.CHAT_MSG_RECV then
      { st with unread := st.unread ++
          [{ message_id := lastrowid
             jid_id := (tableLookup st jid).map (fun r => r.jid_id)
             shown := false }] }
    else st
  return (lastrowid, st)

/-- Logger.get_archive_infos: resolve the jid (inserting it with ROOM_TYPE when
absent) and return its `last_archive_message` row, if any. -/
def get_archive_infos (st : LoggerState) (jid : String) :
    Except String (Option ArchiveRow × LoggerState) := do
  let (jid_id, st) ← get_jid_id st jid none (some JIDConstant.ROOM_TYPE)
  return (st.archive.find? (fun r => r.jid_id = jid_id), st)

/-- The keyword arguments accepted by Logger.set_archive_infos; `none` models
an argument that is absent (or passed as Python None, which the update path
deletes and the insert path defaults to NULL). -/
structure ArchiveInfoArgs where
  last_mam_id : Option String
  oldest_mam_timestamp : Option Int
  last_muc_timestamp : Option Int
  sync_threshold : Option Int
deriving DecidableEq, Repr

/-- Merge for the UPDATE path of set_archive_infos: every provided (non-None)
keyword overwrites the column, every other column keeps its value. -/
def mergeArchiveRow (r : ArchiveRow) (kw : ArchiveInfoArgs) : ArchiveRow :=
  { jid_id := r.jid_id
    last_mam_id := kw.last_mam_id.orElse (fun _ => r.last_mam_id)
    oldest_mam_timestamp := kw.oldest_mam_timestamp.orElse (fun _ => r.oldest_mam_timestamp)
    last_muc_timestamp := kw.last_muc_timestamp.orElse (fun _ => r.last_muc_timestamp)
    sync_threshold := kw.sync_threshold.orElse (fun _ => r.sync_threshold) }

/-- Logger.set_archive_infos: resolve the jid (raising when it is unknown,
since no type is supplied), check for an existing row via get_archive_infos,
then INSERT a fresh row from the keyword arguments or UPDATE only the
provided ones. -/
def set_archive_infos (st : LoggerState) (jid : String) (kw : ArchiveInfoArgs) :
    Except String LoggerState := do
  let (jid_id, st) ← get_jid_id st jid none none
  let (exists_, st) ← get_archive_infos st jid
  match exists_ with
  | none =>
      return { st with archive := st.archive ++
        [{ jid_id := jid_id
           last_mam_id := kw.last_mam_id
           oldest_mam_timestamp := kw.oldest_mam_timestamp
           last_muc_timestamp := kw.last_muc_timestamp
           sync_threshold := kw.sync_threshold }] }
  | some _ =>
      if kw.last_mam_id = none ∧ kw.oldest_mam_timestamp = none ∧
          kw.last_muc_timestamp = none ∧ kw.sync_threshold = none then
        throw "no fields to update"
      else
        return { st with archive := st.archive.map (fun r =>
          if r.jid_id = jid_id then mergeArchiveRow r kw else r) }

/-!
The MAM module (gajim/common/modules/mam.py).  The nbxmpp connection is
modelled by an explicit list of pending queries (each recorded together with
the callback arguments that SendAndCallForResponse would capture), and
`getAnID()` by a counter.  Datetimes are epoch seconds, so
`utcnow() - timedelta(days=d)` becomes `now - d * 86400`.
-/

/-- The archive query built by MAM._get_archive_query (the fields that vary:
target jid, start/end bounds, with-filter, RSM after cursor, page size). -/
structure ArchiveQuery where
  query_id : Nat
  jid : Option String
  start : Option Int
  end_ : Option Int
  with_ : Option String
  after : Option String
  max_ : Nat
deriving DecidableEq, Repr

/-- A query handed to SendAndCallForResponse together with the extra keyword
arguments MAM._send_archive_query registers for the _result_finished
callback. -/
structure PendingQuery where
  query : ArchiveQuery
  query_id : Nat
  start_date : Option Int
  groupchat : Bool
deriving DecidableEq, Repr

/-- The state of the MAM module: the Logger it writes through, the
`_mam_query_ids` dict, the `_catch_up_finished` list, the queries currently
awaiting a response, and the connection's id counter (getAnID). -/
structure MAMState where
  logger : LoggerState
  mam_query_ids : List (String × Nat)
  catch_up_finished : List String
  pending : List PendingQuery
  an_id : Nat
deriving DecidableEq, Repr

/-- Replace-or-append update of a Python dict modelled as an assoc list. -/
def dictSet (m : List (String × Nat)) (k : String) (v : Nat) : List (String × Nat) :=
  if (m.find? (fun p => p.1 = k)).isSome then
    m.map (fun p => if p.1 = k then (k, v) else p)
  else m ++ [(k, v)]

/-- Python dict `pop`: raises KeyError when the key is absent. -/
def dictPop (m : List (String × Nat)) (k : String) :
    Except String (Nat × List (String × Nat)) :=
  match m.find? (fun p => p.1 = k) with
  | some p => .ok (p.2, m.filter (fun q => ¬(q.1 = k)))
  | none => .error "KeyError"

/-- MAM._get_query_id: draw a fresh id from the connection and record it in
`_mam_query_ids` under the jid (replacing any previous entry). -/
def get_query_id (st : MAMState) (jid : String) : Nat × MAMState :=
  (st.an_id,
   { st with
      an_id := st.an_id + 1
      mam_query_ids := dictSet st.mam_query_ids jid st.an_id })

/-- MAM._send_archive_query: hand the query to the connection, registering the
callback arguments. -/
def send_archive_query (st : MAMState) (query : ArchiveQuery) (query_id : Nat)
    (start_date : Option Int) (groupchat : Bool) : MAMState :=
  { st with pending := st.pending ++
      [{ query := query, query_id := query_id,
         start_date := start_date, groupchat := groupchat }] }

/-- Helper building the ArchiveQuery of MAM._get_archive_query with default
arguments filled in. -/
def mkQuery (query_id : Nat) (jid : Option String) (start : Option Int)
    (after : Option String) : ArchiveQuery :=
  { query_id := query_id, jid := jid, start := start, end_ := none,
    with_ := none, after := after, max_ := 70 }

/-- Python string truthiness of an optional string: None and the empty string
are falsy. -/
def truthyStr (s : Option String) : Bool :=
  match s with
  | none => false
  | some s => s ≠ ""

/-- MAM.request_archive_on_signin.  `config_last_mam_id` stands for the legacy
`app.config.get_per('accounts', account, 'last_mam_id')` value consulted when
no checkpoint row exists.  The in-flight guard: when `_mam_query_ids` already
holds an entry for the own jid the request returns with the state unchanged. -/
def request_archive_on_signin (st : MAMState) (own_jid : String) (now : Int)
    (config_last_mam_id : Option String) : Except String MAMState := do
  if (st.mam_query_ids.find? (fun p => p.1 = own_jid)).isSome then
    return st
  let (archive, logger) ← get_archive_infos st.logger own_jid
  let st := { st with logger := logger }
  let mam_id : Option String :=
    archive.elim config_last_mam_id (fun a => a.last_mam_id)
  let (query_id, st) := get_query_id st own_jid
  let (query, start_date) :=
    if truthyStr mam_id then
      (mkQuery query_id none none mam_id, (none : Option Int))
    else
      let sd := now - 7 * 86400
      (mkQuery query_id none (some sd) none, some sd)
  let st := { st with catch_up_finished := st.catch_up_finished.erase own_jid }
  return send_archive_query st query query_id start_date false

/-- get_sync_threshold from gajim/common/helpers.py: when no checkpoint row
exists or its sync_threshold is NULL, take the configured default (the choice
between the private-room and public-room config keys is modelled by the single
`config_threshold` parameter), persist it, and return it; otherwise return the
stored threshold. -/
def get_sync_threshold (st : LoggerState) (jid : String)
    (archive_info : Option ArchiveRow) (config_threshold : Int) :
    Except String (Int × LoggerState) := do
  if archive_info.isNone ∨ (archive_info.bind (fun a => a.sync_threshold)).isNone then
    let st ← set_archive_infos st jid
      { last_mam_id := none, oldest_mam_timestamp := none,
        last_muc_timestamp := none, sync_threshold := some config_threshold }
    return (config_threshold, st)
  else
    return ((archive_info.bind (fun a => a.sync_threshold)).getD 0, st)

/-- MAM.request_archive_on_muc_join.  Note there is no in-flight guard: a new
query id is drawn and stored unconditionally.  SyncThreshold.NO_THRESHOLD
is 0. -/
def request_archive_on_muc_join (st : MAMState) (jid : String) (now : Int)
    (config_threshold : Int) : Except String MAMState := do
  let (archive, logger) ← get_archive_infos st.logger jid
  let st := { st with logger := logger }
  let (threshold, logger) ← get_sync_threshold st.logger jid archive config_threshold
  let st := { st with logger := logger }
  let (query_id, st) := get_query_id st jid
  let (query, start_date) :=
    if archive.isNone ∨ (archive.bind (fun a => a.last_mam_id)).isNone then
      let sd := now - 1 * 86400
      (mkQuery query_id (some jid) (some sd) none, some sd)
    else if threshold = 0 then
      (mkQuery query_id (some jid) none (archive.bind (fun a => a.last_mam_id)),
       (none : Option Int))
    else
      let last_timestamp := (archive.bind (fun a => a.last_muc_timestamp)).getD 0
      if now - last_timestamp > threshold * 86400 then
        let sd := now - threshold * 86400
        (mkQuery query_id (some jid) (some sd) none, some sd)
      else
        (mkQuery query_id (some jid) none (archive.bind (fun a => a.last_mam_id)),
         (none : Option Int))
  let st := { st with catch_up_finished := st.catch_up_finished.erase jid }
  return send_archive_query st query query_id start_date true

/-- The parts of a MAM fin-iq response that _result_finished inspects:
whether _parse_iq succeeds, the stanza's from (None means the own archive),
the RSM `last` cursor and the `complete` attribute. -/
structure MamResponse where
  valid : Bool
  from_ : Option String
  last : Option String
  complete : Bool
deriving DecidableEq, Repr

/-- MAM._result_finished with the callback arguments (query_id dropped since
it is unused), `now` standing for time.time().  On an invalid iq the state is
unchanged; with no `last` cursor the scope is marked caught up; on an
incomplete page the cursor is persisted and the next page is queried with no
start_date; on completion the final cursor and last_muc_timestamp are
persisted, and oldest_mam_timestamp additionally when a start_date was carried
and the scope is not a group chat. -/
def result_finished (st : MAMState) (own_jid : String) (resp : MamResponse)
    (start_date : Option Int) (groupchat : Bool) (now : Int) :
    Except String MAMState := do
  if ¬resp.valid then
    return st
  let jid := resp.from_.getD own_jid
  match resp.last with
  | none =>
      let st := { st with catch_up_finished := st.catch_up_finished ++ [jid] }
      let (_, m) ← dictPop st.mam_query_ids jid
      return { st with mam_query_ids := m }
  | some last =>
    if ¬resp.complete then
      let logger ← set_archive_infos st.logger jid
        { last_mam_id := some last, oldest_mam_timestamp := none,
          last_muc_timestamp := none, sync_threshold := none }
      let st := { st with logger := logger }
      let (_, m) ← dictPop st.mam_query_ids jid
      let st := { st with mam_query_ids := m }
      let (query_id, st) := get_query_id st jid
      let query := mkQuery query_id (some jid) none (some last)
      return send_archive_query st query query_id none groupchat
    else
      let (_, m) ← dictPop st.mam_query_ids jid
      let st := { st with mam_query_ids := m }
      let logger ← set_archive_infos st.logger jid
        { last_mam_id := some last, oldest_mam_timestamp := none,
          last_muc_timestamp := some now, sync_threshold := none }
      let st := { st with logger := logger }
      let st ←
        if start_date.isSome ∧ ¬groupchat then do
          let logger ← set_archive_infos st.logger jid
            { last_mam_id := none, oldest_mam_timestamp := start_date,
              last_muc_timestamp := none, sync_threshold := none }
          pure { st with logger := logger }
        else pure st
      return { st with catch_up_finished := st.catch_up_finished ++ [jid] }

/-- Deliver the response to the oldest pending query, invoking
_result_finished with the callback arguments recorded at send time. -/
def deliver (st : MAMState) (own_jid : String) (resp : MamResponse) (now : Int) :
    Except String MAMState :=
  match st.pending with
  | [] => .error "no pending query"
  | p :: rest =>
      result_finished { st with pending := rest } own_jid resp
        p.start_date p.groupchat now

/-- The MAM archive protocol namespace of a message (NS_MAM_1 or NS_MAM_2). -/
inductive MamNS where
  | v1
  | v2
deriving DecidableEq, Repr

/-- The parsed message properties consulted by MAM._mam_message_received:
type/kind flags, bare from, the archive that delivered the message, the
archive-assigned stanza id (`properties.mam.id`), the client message id
(`properties.id`), the archive namespace, the archive timestamp, body,
encryption/EME hints, the stripped counterpart jid, the muc nickname and the
mam query id of the enclosing result. -/
structure MsgProps where
  is_mam_message : Bool
  is_groupchat : Bool
  is_self_message : Bool
  is_muc_pm : Bool
  from_bare : String
  mam_archive : String
  mam_id : Option String
  id : Option String
  mam_ns : MamNS
  mam_timestamp : Int
  body : Option String
  is_encrypted : Bool
  eme : Option String
  jid_stripped : String
  muc_nickname : Option String
  mam_query_id : Nat
deriving DecidableEq, Repr

/-- MAM._from_valid_archive: for group chats the expected archive is the
message's jid, otherwise the own jid; compared bare. -/
def from_valid_archive (own_bare : String) (p : MsgProps) : Bool :=
  (if p.is_groupchat then p.jid_stripped else own_bare) = p.mam_archive

/-- MAM._is_valid_request: the query id of the result must match the one
stored for the archive in `_mam_query_ids`. -/
def is_valid_request (st : MAMState) (p : MsgProps) : Bool :=
  (st.mam_query_ids.find? (fun q => q.1 = p.mam_archive)).map (fun q => q.2)
    = some p.mam_query_id

/-- MAM._get_unique_id: (stanza_id, origin_id) pair used for deduplication;
group chats use only the archive id, self messages only the client id, muc
private messages and own sent messages both, received messages only the
archive id. -/
def get_unique_id (own_bare : String) (p : MsgProps) :
    Option String × Option String :=
  if p.is_groupchat then (p.mam_id, none)
  else if p.is_self_message then (none, p.id)
  else if p.is_muc_pm then (p.mam_id, p.id)
  else if p.from_bare = own_bare then (p.mam_id, p.id)
  else (p.mam_id, none)

/-- How MAM._mam_message_received disposed of a message. -/
inductive MamMsgOutcome where
  | not_mam
  | invalid_archive
  | invalid_request
  | dup_stanza_id
  | no_body
  | self_no_origin
  | dup_fallback
  | inserted (log_line_id : Nat)
deriving DecidableEq, Repr

/-- The displayed text computed by _mam_message_received: the body, except
that for an unencrypted message carrying an EME hint the EME description
(get_eme_message) replaces it. -/
def mam_msgtxt (p : MsgProps) : Option String :=
  if p.is_encrypted then p.body
  else match p.eme with
    | some eme => some eme
    | none => p.body

/-- The final insert_into_logs call of _mam_message_received (unread=False,
message, contact_name, stanza_id and message_id passed as keyword
arguments). -/
def mam_insert (st : MAMState) (account_jid with_ : String) (p : MsgProps)
    (kind : KindConstant) (stanza_id : Option String) :
    Except String (MamMsgOutcome × MAMState) := do
  let (rowid, logger) ← insert_into_logs st.logger account_jid with_
    p.mam_timestamp kind false (mam_msgtxt p) p.muc_nickname none stanza_id p.id
  return (.inserted rowid, { st with logger := logger })

/-- The tail of _mam_message_received after the mam:2 stable-id check: drop
bodyless messages, reject self messages lacking an origin-id (using the
origin-id as the stored stanza id otherwise), run the mam:1 timestamp-window
fallback, and insert. -/
def mam_message_received_rest (st : MAMState) (account_jid : String)
    (p : MsgProps) (kind : KindConstant)
    (stanza_id message_id : Option String) :
    Except String (MamMsgOutcome × MAMState) := do
  let msgtxt := mam_msgtxt p
  if ¬truthyStr msgtxt then
    return (.no_body, st)
  let with_ := p.jid_stripped
  if p.is_self_message ∧ message_id.isNone then
    return (.self_no_origin, st)
  let stanza_id := if p.is_self_message then message_id else stanza_id
  if p.mam_ns = MamNS.v1 then
    let (dup, logger) ← search_for_duplicate st.logger account_jid with_
      p.mam_timestamp (msgtxt.getD "")
    let st := { st with logger := logger }
    if dup then
      return (.dup_fallback, st)
    else
      mam_insert st account_jid with_ p kind stanza_id
  else
    mam_insert st account_jid with_ p kind stanza_id

/-- MAM._mam_message_received: validate archive and query id, compute the
kind and the unique ids, run the mam:2 stable-id duplicate check, and hand
over to the tail. -/
def mam_message_received (st : MAMState) (own_bare account_jid : String)
    (p : MsgProps) : Except String (MamMsgOutcome × MAMState) := do
  if ¬p.is_mam_message then
    return (.not_mam, st)
  if ¬from_valid_archive own_bare p then
    return (.invalid_archive, st)
  if ¬is_valid_request st p then
    return (.invalid_request, st)
  let kind :=
    if p.is_groupchat then KindConstant.GC_MSG
    else if p.from_bare = own_bare then KindConstant.CHAT_MSG_SENT
    else KindConstant.CHAT_MSG_RECV
  let (stanza_id, message_id) := get_unique_id own_bare p
  if p.mam_ns = MamNS.v2 then
    let (dup, logger) ← find_stanza_id st.logger account_jid p.mam_archive
      stanza_id message_id p.is_groupchat
    let st' := { st with logger := logger }
    if dup then
      return (.dup_stanza_id, st')
    else
      mam_message_received_rest st' account_jid p kind stanza_id message_id
  else
    mam_message_received_rest st account_jid p kind stanza_id message_id

/-!
Basic lemmas about the identity resolver.
-/

/-- When the jid is already known, get_jid_id returns its resolved id and at
most extends the in-memory cache, leaving every table untouched. -/
theorem get_jid_id_known (st : LoggerState) (jid : String)
    (kind : Option KindConstant) (type_ : Option JIDConstant)
    (h : jidKnown st jid) :
    ∃ c, get_jid_id st jid kind type_ =
      .ok ((resolvedId st jid).getD 0, { st with jid_cache := c }) := by
  unfold jidKnown at h
  unfold get_jid_id resolvedId at *
  cases hc : cacheLookup st.jid_cache jid with
  | some row =>
      exact ⟨st.jid_cache, by simp [hc]⟩
  | none =>
      cases ht : tableLookup st jid with
      | some row => exact ⟨(jid, row) :: st.jid_cache, by simp [hc, ht]⟩
      | none => simp [hc, ht] at h

/-- Frame of get_jid_id: logs, unread, archive and the log counter never
change; the jids table is unchanged or extended by one row for the looked-up
jid. -/
theorem get_jid_id_frame (st : LoggerState) (jid : String)
    (kind : Option KindConstant) (type_ : Option JIDConstant)
    (i : Nat) (st' : LoggerState)
    (h : get_jid_id st jid kind type_ = .ok (i, st')) :
    st'.logs = st.logs ∧ st'.unread = st.unread ∧ st'.archive = st.archive ∧
    st'.next_log_line_id = st.next_log_line_id ∧
    (st'.jids = st.jids ∨ ∃ row : JidRow, row.jid = jid ∧
      st'.jids = st.jids ++ [row]) := by
  unfold get_jid_id at h
  cases hc : cacheLookup st.jid_cache jid with
  | some row =>
      simp [hc] at h
      simp [← h.2]
  | none =>
      cases ht : tableLookup st jid with
      | some row =>
          simp [hc, ht] at h
          simp [← h.2]
      | none =>
          cases htp : (if kind = some KindConstant.GC_MSG ∨ kind = some KindConstant.GCSTATUS
              then some JIDConstant.ROOM_TYPE
              else if kind.isSome then some JIDConstant.NORMAL_TYPE else type_) with
          | none => simp [hc, ht, htp] at h
          | some t =>
              simp [hc, ht, htp] at h
              obtain ⟨h1, h2⟩ := h
              subst h2
              refine ⟨rfl, rfl, rfl, rfl, Or.inr ⟨_, rfl, rfl⟩⟩

/-- When the jid was already known, get_jid_id leaves the jids table
unchanged. -/
theorem get_jid_id_known_jids (st : LoggerState) (jid : String)
    (kind : Option KindConstant) (type_ : Option JIDConstant)
    (i : Nat) (st' : LoggerState)
    (h : get_jid_id st jid kind type_ = .ok (i, st'))
    (hk : jidKnown st jid) : st'.jids = st.jids := by
  obtain ⟨c, hc⟩ := get_jid_id_known st jid kind type_ hk
  rw [hc] at h
  cases h
  rfl

/-- Unfolding the cache lookup over a newly cached entry. -/
theorem cacheLookup_cons (k : String) (row : JidRow)
    (c : List (String × JidRow)) (jid : String) :
    cacheLookup ((k, row) :: c) jid =
      if k = jid then some row else cacheLookup c jid := by
  unfold cacheLookup
  by_cases h : k = jid <;> simp [List.find?_cons, h]

/-- A known jid keeps its resolved id across any get_jid_id call (on any
jid). -/
theorem resolvedId_preserved (st : LoggerState) (jid : String)
    (kind : Option KindConstant) (type_ : Option JIDConstant)
    (i : Nat) (st' : LoggerState)
    (h : get_jid_id st jid kind type_ = .ok (i, st'))
    (jid2 : String) (h2 : jidKnown st jid2) :
    resolvedId st' jid2 = resolvedId st jid2 := by
  unfold jidKnown at h2
  unfold get_jid_id at h
  cases hc : cacheLookup st.jid_cache jid with
  | some row =>
      simp [hc] at h
      rw [← h.2]
  | none =>
      cases ht : tableLookup st jid with
      | some row =>
          simp [hc, ht] at h
          rw [← h.2]
          unfold resolvedId
          simp only [cacheLookup_cons]
          by_cases hj : jid = jid2
          · subst hj
            simp [hc, ht]
          · simp only [hj, if_false]
            rfl
      | none =>
          cases htp : (if kind = some KindConstant.GC_MSG ∨ kind = some KindConstant.GCSTATUS
              then some JIDConstant.ROOM_TYPE
              else if kind.isSome then some JIDConstant.NORMAL_TYPE else type_) with
          | none => simp [hc, ht, htp] at h
          | some t =>
              simp [hc, ht, htp] at h
              obtain ⟨h1, hst⟩ := h
              subst hst
              by_cases hj : jid = jid2
              · subst hj
                unfold resolvedId at h2
                simp [hc, ht] at h2
              · unfold resolvedId tableLookup
                simp only [cacheLookup_cons, hj, if_false]
                cases hc2 : cacheLookup st.jid_cache jid2 with
                | some row2 => rfl
                | none =>
                    unfold resolvedId tableLookup at h2
                    simp only [hc2] at h2
                    cases ht2 : List.find? (fun r => decide (r.jid = jid2)) st.jids with
                    | none => simp [ht2] at h2
                    | some r2 => simp [List.find?_append, ht2]

/-- The id returned by a successful get_jid_id is the one the post state
resolves the jid to. -/
theorem get_jid_id_resolvedId_post (st : LoggerState) (jid : String)
    (kind : Option KindConstant) (type_ : Option JIDConstant)
    (i : Nat) (st' : LoggerState)
    (h : get_jid_id st jid kind type_ = .ok (i, st')) :
    resolvedId st' jid = some i := by
  unfold get_jid_id at h
  cases hc : cacheLookup st.jid_cache jid with
  | some row =>
      simp [hc] at h
      rw [← h.2, ← h.1]
      unfold resolvedId
      simp [hc]
  | none =>
      cases ht : tableLookup st jid with
      | some row =>
          simp [hc, ht] at h
          rw [← h.2, ← h.1]
          unfold resolvedId
          simp [cacheLookup_cons]
      | none =>
          cases htp : (if kind = some KindConstant.GC_MSG ∨ kind = some KindConstant.GCSTATUS
              then some JIDConstant.ROOM_TYPE
              else if kind.isSome then some JIDConstant.NORMAL_TYPE else type_) with
          | none => simp [hc, ht, htp] at h
          | some t =>
              simp [hc, ht, htp] at h
              rw [← h.2, ← h.1]
              unfold resolvedId
              simp [cacheLookup_cons]

/-- get_account_id always succeeds (a NORMAL_TYPE is supplied for the insert
path). -/
theorem get_account_id_ok (st : LoggerState) (account_jid : String) :
    ∃ i st', get_account_id st account_jid = .ok (i, st') := by
  unfold get_account_id get_jid_id
  cases hc : cacheLookup st.jid_cache account_jid with
  | some row =>
      exact ⟨row.jid_id, st, by simp [hc]⟩
  | none =>
      cases ht : tableLookup st account_jid with
      | some row =>
          exact ⟨row.jid_id,
            { st with jid_cache := (account_jid, row) :: st.jid_cache },
            by simp [hc, ht]⟩
      | none =>
          refine ⟨st.next_jid_id,
            { st with
               jids := st.jids ++
                 [{ jid_id := st.next_jid_id, jid := account_jid,
                    type := JIDConstant.NORMAL_TYPE }]
               next_jid_id := st.next_jid_id + 1
               jid_cache := (account_jid,
                 { jid_id := st.next_jid_id, jid := account_jid,
                   type := JIDConstant.NORMAL_TYPE }) :: st.jid_cache }, ?_⟩
          simp [hc, ht]

/-- One row satisfying the declarative mam:1 fallback duplicate condition:
same conversation jid (through the join with the jids table), same message
body, same account, stored timestamp within the window of the candidate. -/
def FallbackDupRow (jids : List JidRow) (account_id : Nat) (jid msg : String)
    (t w : Int) (r : LogRow) : Prop :=
  (∃ j ∈ jids, j.jid_id = r.jid_id ∧ j.jid = jid) ∧
  r.message = some msg ∧ r.account_id = account_id ∧ |r.time - t| ≤ w

/-- Declarative mam:1 fallback duplicate condition over a logger state. -/
def FallbackDup (st : LoggerState) (account_id : Nat) (jid msg : String)
    (t w : Int) : Prop :=
  ∃ r ∈ st.logs, FallbackDupRow st.jids account_id jid msg t w r

/-- One row satisfying the group-chat fallback duplicate condition: same muc
jid, same resource (contact_name), same message-id, same account, stored
timestamp within the window. -/
def MucDupRow (jids : List JidRow) (account_id : Nat)
    (jid resource message_id : String) (t w : Int) (r : LogRow) : Prop :=
  (∃ j ∈ jids, j.jid_id = r.jid_id ∧ j.jid = jid) ∧
  r.contact_name = some resource ∧ r.message_id = some message_id ∧
  r.account_id = account_id ∧ |r.time - t| ≤ w

/-- Declarative group-chat fallback duplicate condition over a logger state. -/
def MucDup (st : LoggerState) (account_id : Nat)
    (jid resource message_id : String) (t w : Int) : Prop :=
  ∃ r ∈ st.logs, MucDupRow st.jids account_id jid resource message_id t w r

/-- A concrete direct-chat store: account acc@s (id 1), contact bob@s (id 2),
one received chat message "hello" stored at time 1000. -/
def sampleDirectState : LoggerState :=
  { jid_cache := [("acc@s", ⟨1, "acc@s", .NORMAL_TYPE⟩),
                  ("bob@s", ⟨2, "bob@s", .NORMAL_TYPE⟩)]
    jids := [⟨1, "acc@s", .NORMAL_TYPE⟩, ⟨2, "bob@s", .NORMAL_TYPE⟩]
    next_jid_id := 3
    logs := [⟨1, 1, 2, none, 1000, .CHAT_MSG_RECV, some "hello", none, none, none⟩]
    next_log_line_id := 2
    unread := []
    archive := [] }

/-- A BETWEEN window of w seconds either side is the same as an absolute
time distance of at most w. -/
theorem window_iff (a t w : Int) : (t - w ≤ a ∧ a ≤ t + w) ↔ |a - t| ≤ w := by
  rw [abs_sub_le_iff]
  omega

/-- The Bool row predicate of search_for_duplicate holds exactly on rows
satisfying the declarative fallback duplicate condition. -/
theorem fallbackPred_iff (jids : List JidRow) (aid : Nat) (jid msg : String)
    (t w : Int) (r : LogRow) :
    ((jids.any (fun j => j.jid_id = r.jid_id && j.jid = jid)) &&
      r.message = some msg && r.account_id = aid &&
      (t - w ≤ r.time) && (r.time ≤ t + w)) = true
    ↔ FallbackDupRow jids aid jid msg t w r := by
  simp only [FallbackDupRow, Bool.and_eq_true, decide_eq_true_eq,
    List.any_eq_true, ← window_iff]
  tauto

/-- The Bool row predicate of deduplicate_muc_message holds exactly on rows
satisfying the declarative muc fallback duplicate condition. -/
theorem mucPred_iff (jids : List JidRow) (aid : Nat)
    (jid resource message_id : String) (t w : Int) (r : LogRow) :
    ((jids.any (fun j => j.jid_id = r.jid_id && j.jid = jid)) &&
      r.contact_name = some resource && r.message_id = some message_id &&
      r.account_id = aid &&
      (t - w ≤ r.time) && (r.time ≤ t + w)) = true
    ↔ MucDupRow jids aid jid resource message_id t w r := by
  simp only [MucDupRow, Bool.and_eq_true, decide_eq_true_eq,
    List.any_eq_true, ← window_iff]
  tauto

/-- C1: the mam:1 fallback duplicate detection declares a duplicate exactly
when a stored row has the same account, same conversation jid and same
message body with a timestamp within 30 seconds either side of the candidate
(60 seconds for the group-chat variant, which additionally matches on the
resource and the message-id); hence the concrete sample store with a message
at time 1000 flags an identical message at 1010 as duplicate and one at 1090
as fresh. -/
theorem fallback_window_dedup (st : LoggerState)
    (account jid resource msg mid : String) (t : Int) :
    (∃ b st', search_for_duplicate st account jid t msg = .ok (b, st') ∧
      st'.logs = st.logs ∧
      (b = true ↔ FallbackDup st' ((resolvedId st' account).getD 0) jid msg t 30)) ∧
    (∃ b st', deduplicate_muc_message st account jid resource t mid = .ok (b, st') ∧
      st'.logs = st.logs ∧
      (b = true ↔ MucDup st' ((resolvedId st' account).getD 0) jid resource mid t 60)) ∧
    search_for_duplicate sampleDirectState "acc@s" "bob@s" 1010 "hello"
      = .ok (true, sampleDirectState) ∧
    search_for_duplicate sampleDirectState "acc@s" "bob@s" 1090 "hello"
      = .ok (false, sampleDirectState) := by
  obtain ⟨aid, st1, h1⟩ := get_account_id_ok st account
  have hres : resolvedId st1 account = some aid :=
    get_jid_id_resolvedId_post st account none (some JIDConstant.NORMAL_TYPE)
      aid st1 h1
  have hlogs : st1.logs = st.logs :=
    (get_jid_id_frame st account none (some JIDConstant.NORMAL_TYPE) aid st1 h1).1
  have hrun1 : search_for_duplicate st account jid t msg =
      .ok ((st1.logs.find? (fun r =>
        (st1.jids.any (fun j => j.jid_id = r.jid_id && j.jid = jid)) &&
        r.message = some msg && r.account_id = aid &&
        (t - 30 ≤ r.time) && (r.time ≤ t + 30))).isSome, st1) := by
    unfold search_for_duplicate get_account_id at *
    rw [h1]
    rfl
  have hrun2 : deduplicate_muc_message st account jid resource t mid =
      .ok ((st1.logs.find? (fun r =>
        (st1.jids.any (fun j => j.jid_id = r.jid_id && j.jid = jid)) &&
        r.contact_name = some resource && r.message_id = some mid &&
        r.account_id = aid &&
        (t - 60 ≤ r.time) && (r.time ≤ t + 60))).isSome, st1) := by
    unfold deduplicate_muc_message get_account_id at *
    rw [h1]
    rfl
  refine ⟨⟨_, st1, hrun1, hlogs, ?_⟩, ⟨_, st1, hrun2, hlogs, ?_⟩,
    by rfl, by rfl⟩
  · rw [hres]
    simp only [Option.getD_some, FallbackDup, List.find?_isSome,
      fallbackPred_iff]
  · rw [hres]
    simp only [Option.getD_some, MucDup, List.find?_isSome, mucPred_iff]

/-- C10: a candidate carrying neither a stanza-id nor an origin-id is never
declared a stable-id duplicate: find_stanza_id returns False with the store
untouched, for every account, archive jid, scope and state. -/
theorem find_stanza_id_no_ids (st : LoggerState)
    (account_jid archive_jid : String) (groupchat : Bool) :
    find_stanza_id st account_jid archive_jid none none groupchat
      = .ok (false, st) := by
  rfl

/-- get_jid_id with an explicit type never fails. -/
theorem get_jid_id_with_type_ok (st : LoggerState) (jid : String)
    (t : JIDConstant) :
    ∃ i st', get_jid_id st jid none (some t) = .ok (i, st') := by
  unfold get_jid_id
  cases hc : cacheLookup st.jid_cache jid with
  | some row =>
      exact ⟨row.jid_id, st, by simp [hc]⟩
  | none =>
      cases ht : tableLookup st jid with
      | some row =>
          exact ⟨row.jid_id,
            { st with jid_cache := (jid, row) :: st.jid_cache },
            by simp [hc, ht]⟩
      | none =>
          refine ⟨st.next_jid_id,
            { st with
               jids := st.jids ++
                 [{ jid_id := st.next_jid_id, jid := jid, type := t }]
               next_jid_id := st.next_jid_id + 1
               jid_cache := (jid,
                 { jid_id := st.next_jid_id, jid := jid,
                   type := t }) :: st.jid_cache }, ?_⟩
          simp [hc, ht]

/-- Row condition of the group-chat stable-id search: stanza_id among the
candidate ids, row in the queried archive, same account. -/
def StanzaDupRowGC (archive_id account_id : Nat) (ids : List String)
    (r : LogRow) : Prop :=
  (∃ i ∈ ids, r.stanza_id = some i) ∧ r.jid_id = archive_id ∧
  r.account_id = account_id

/-- Row condition of the personal-archive stable-id search: stanza_id among
the candidate ids, same account, and the row is not a group-chat message. -/
def StanzaDupRowPersonal (account_id : Nat) (ids : List String)
    (r : LogRow) : Prop :=
  (∃ i ∈ ids, r.stanza_id = some i) ∧ r.account_id = account_id ∧
  r.kind ≠ KindConstant.GC_MSG

/-- The Bool row predicate of the group-chat branch of find_stanza_id agrees
with the declarative row condition. -/
theorem stanzaPredGC_iff (ids : List String) (arid acid : Nat) (r : LogRow) :
    (ids.any (fun i => r.stanza_id = some i) &&
      r.jid_id = arid && r.account_id = acid) = true
    ↔ StanzaDupRowGC arid acid ids r := by
  simp only [StanzaDupRowGC, Bool.and_eq_true, decide_eq_true_eq,
    List.any_eq_true]
  tauto

/-- The Bool row predicate of the personal-archive branch of find_stanza_id
agrees with the declarative row condition. -/
theorem stanzaPredPersonal_iff (ids : List String) (acid : Nat) (r : LogRow) :
    (ids.any (fun i => r.stanza_id = some i) &&
      r.account_id = acid && r.kind ≠ KindConstant.GC_MSG) = true
    ↔ StanzaDupRowPersonal acid ids r := by
  simp only [StanzaDupRowPersonal, Bool.and_eq_true, decide_eq_true_eq,
    List.any_eq_true, decide_not, Bool.not_eq_true', decide_eq_false_iff_not]
  tauto

/-- Bind of a successful Except computation. -/
theorem exceptBind_ok {a : Type} {b : Type} (x : a)
    (f : a -> Except String b) :
    ((Except.ok x : Except String a) >>= f) = f x := rfl

/-- C2 (amended): the stable-id duplicate search is scoped per archive: in
the group-chat branch a row is found exactly when its stanza_id is among the
candidate ids AND the row belongs to the queried archive jid AND the account
matches (so an identical stanza-id stored under a different room id is not
found); the personal-archive branch matches on account and excludes rows of
group-chat-message kind.  The sender name plays no role. -/
theorem find_stanza_id_archive_scoping (st : LoggerState)
    (account archive : String) (sid oid : Option String) :
    (∃ b st', find_stanza_id st account archive sid oid true = .ok (b, st') ∧
      st'.logs = st.logs ∧
      (b = true ↔ ∃ r ∈ st.logs,
        StanzaDupRowGC ((resolvedId st' archive).getD 0)
          ((resolvedId st' account).getD 0) (sid.toList ++ oid.toList) r)) ∧
    (∃ b st', find_stanza_id st account archive sid oid false = .ok (b, st') ∧
      st'.logs = st.logs ∧
      (b = true ↔ ∃ r ∈ st.logs,
        StanzaDupRowPersonal ((resolvedId st' account).getD 0)
          (sid.toList ++ oid.toList) r)) := by
  by_cases hempty : sid.toList ++ oid.toList = []
  · have hsid : sid = none := by
      cases sid <;> simp_all
    have hoid : oid = none := by
      cases sid <;> cases oid <;> simp_all
    subst hsid
    subst hoid
    refine ⟨⟨false, st, by rfl, rfl, by simp [StanzaDupRowGC]⟩,
      ⟨false, st, by rfl, rfl, by simp [StanzaDupRowPersonal]⟩⟩
  · constructor
    · obtain ⟨arid, st1, ha⟩ :=
        get_jid_id_with_type_ok st archive JIDConstant.ROOM_TYPE
      obtain ⟨acid, st2, hb⟩ := get_account_id_ok st1 account
      have hres1 : resolvedId st1 archive = some arid :=
        get_jid_id_resolvedId_post st archive none
          (some JIDConstant.ROOM_TYPE) arid st1 ha
      have hknown1 : jidKnown st1 archive := by
        unfold jidKnown
        rw [hres1]
        rfl
      have hres1' : resolvedId st2 archive = some arid := by
        unfold get_account_id at hb
        rw [resolvedId_preserved st1 account none
          (some JIDConstant.NORMAL_TYPE) acid st2 hb archive hknown1]
        exact hres1
      have hres2 : resolvedId st2 account = some acid := by
        unfold get_account_id at hb
        exact get_jid_id_resolvedId_post st1 account none
          (some JIDConstant.NORMAL_TYPE) acid st2 hb
      have hlogs1 : st1.logs = st.logs :=
        (get_jid_id_frame st archive none (some JIDConstant.ROOM_TYPE)
          arid st1 ha).1
      have hlogs2 : st2.logs = st.logs := by
        unfold get_account_id at hb
        rw [(get_jid_id_frame st1 account none (some JIDConstant.NORMAL_TYPE)
          acid st2 hb).1]
        exact hlogs1
      have hrun : find_stanza_id st account archive sid oid true =
          .ok ((st2.logs.find? (fun r =>
            (sid.toList ++ oid.toList).any (fun i => r.stanza_id = some i) &&
            r.jid_id = arid && r.account_id = acid)).isSome, st2) := by
        unfold find_stanza_id get_account_id at *
        simp only [List.isEmpty_eq_true, hempty, if_false, ite_false,
          Bool.false_eq_true, reduceIte]
        rw [ha]
        simp only [exceptBind_ok]
        rw [hb]
        simp only [exceptBind_ok]
        rfl
      refine ⟨_, st2, hrun, hlogs2, ?_⟩
      rw [hres1', hres2, ← hlogs2]
      simp only [Option.getD_some, List.find?_isSome, stanzaPredGC_iff]
    · obtain ⟨arid, st1, ha⟩ :=
        get_jid_id_with_type_ok st archive JIDConstant.NORMAL_TYPE
      obtain ⟨acid, st2, hb⟩ := get_account_id_ok st1 account
      have hres2 : resolvedId st2 account = some acid := by
        unfold get_account_id at hb
        exact get_jid_id_resolvedId_post st1 account none
          (some JIDConstant.NORMAL_TYPE) acid st2 hb
      have hlogs1 : st1.logs = st.logs :=
        (get_jid_id_frame st archive none (some JIDConstant.NORMAL_TYPE)
          arid st1 ha).1
      have hlogs2 : st2.logs = st.logs := by
        unfold get_account_id at hb
        rw [(get_jid_id_frame st1 account none (some JIDConstant.NORMAL_TYPE)
          acid st2 hb).1]
        exact hlogs1
      have hrun : find_stanza_id st account archive sid oid false =
          .ok ((st2.logs.find? (fun r =>
            (sid.toList ++ oid.toList).any (fun i => r.stanza_id = some i) &&
            r.account_id = acid && r.kind ≠ KindConstant.GC_MSG)).isSome,
            st2) := by
        unfold find_stanza_id get_account_id at *
        simp only [List.isEmpty_eq_true, hempty, if_false, ite_false,
          Bool.false_eq_true, reduceIte]
        rw [ha]
        simp only [exceptBind_ok]
        rw [hb]
        simp only [exceptBind_ok]
        rfl
      refine ⟨_, st2, hrun, hlogs2, ?_⟩
      rw [hres2, ← hlogs2]
      simp only [Option.getD_some, List.find?_isSome, stanzaPredPersonal_iff]

/-- A concrete room store parameterised by the sender name of its single
stored group-chat message carrying stanza-id SID1. -/
def roomLogState (cn : String) : LoggerState :=
  { jid_cache := [("acc@s", ⟨1, "acc@s", .NORMAL_TYPE⟩),
                  ("room@c", ⟨2, "room@c", .ROOM_TYPE⟩)]
    jids := [⟨1, "acc@s", .NORMAL_TYPE⟩, ⟨2, "room@c", .ROOM_TYPE⟩]
    next_jid_id := 3
    logs := [⟨1, 1, 2, some cn, 1000, .GC_MSG, some "hi", none,
              some "SID1", none⟩]
    next_log_line_id := 2
    unread := []
    archive := [] }

/-- C2 counterexample to the sender-name clause: the group-chat stable-id
search has no sender parameter and does not filter on the stored sender name:
the same query finds the row whether its contact_name is alice or bob, so the
search is scoped by the archive jid and account only, not additionally by
sender name. -/
theorem find_stanza_id_ignores_sender :
    find_stanza_id (roomLogState "alice") "acc@s" "room@c"
      (some "SID1") none true = .ok (true, roomLogState "alice") ∧
    find_stanza_id (roomLogState "bob") "acc@s" "room@c"
      (some "SID1") none true = .ok (true, roomLogState "bob") := by
  exact ⟨rfl, rfl⟩

/-- C7: identity assignment is sticky: when the address is already present
(cache or table) every call of get_jid_id returns the originally assigned id
whatever kind/type hints are passed, the jids table (and hence the stored
type) is unchanged, the resolved id is unchanged afterwards, and any
subsequent get_jid_id call on any address still leaves this address's
resolved id unchanged. -/
theorem get_jid_id_sticky (st : LoggerState) (jid : String)
    (h : jidKnown st jid) (kind : Option KindConstant)
    (type_ : Option JIDConstant) :
    ∃ st', get_jid_id st jid kind type_ =
        .ok ((resolvedId st jid).getD 0, st') ∧
      st'.jids = st.jids ∧ resolvedId st' jid = resolvedId st jid ∧
      (∀ jid2 kind2 type2 i2 st2,
        get_jid_id st' jid2 kind2 type2 = .ok (i2, st2) →
        resolvedId st2 jid = resolvedId st jid) := by
  obtain ⟨c, hc⟩ := get_jid_id_known st jid kind type_ h
  obtain ⟨x, hx⟩ := Option.isSome_iff_exists.mp h
  have hpost := get_jid_id_resolvedId_post st jid kind type_ _ _ hc
  have hpres : resolvedId { st with jid_cache := c } jid = resolvedId st jid := by
    rw [hpost, hx]
    simp
  refine ⟨_, hc, rfl, hpres, ?_⟩
  intro jid2 kind2 type2 i2 st2 h2
  have hknown : jidKnown { st with jid_cache := c } jid := by
    unfold jidKnown
    rw [hpres, hx]
    rfl
  rw [resolvedId_preserved _ jid2 kind2 type2 i2 st2 h2 jid hknown]
  exact hpres

/-- Witness for the sticky-identity theorem at a concrete store: bob@s is
known, so a lookup with a group-chat kind hint (forcing a ROOM type
expectation) still returns the stored id and changes nothing. -/
theorem get_jid_id_sticky_witness :
    jidKnown sampleDirectState "bob@s" ∧
    (∃ st', get_jid_id sampleDirectState "bob@s" (some KindConstant.GC_MSG)
        none =
        .ok ((resolvedId sampleDirectState "bob@s").getD 0, st') ∧
      st'.jids = sampleDirectState.jids ∧
      resolvedId st' "bob@s" = resolvedId sampleDirectState "bob@s" ∧
      (∀ jid2 kind2 type2 i2 st2,
        get_jid_id st' jid2 kind2 type2 = .ok (i2, st2) →
        resolvedId st2 "bob@s" = resolvedId sampleDirectState "bob@s")) :=
  ⟨by decide,
   get_jid_id_sticky sampleDirectState "bob@s" (by decide)
     (some KindConstant.GC_MSG) none⟩

/-- set_archive_infos is a frame-preserving upsert (helper form); at least
one field must be provided, else the UPDATE branch raises. -/
theorem set_archive_infos_upsert (st : LoggerState) (jid : String)
    (kw : ArchiveInfoArgs) (h : jidKnown st jid)
    (hprov : ¬(kw.last_mam_id = none ∧ kw.oldest_mam_timestamp = none ∧
      kw.last_muc_timestamp = none ∧ kw.sync_threshold = none)) :
    ∃ st', set_archive_infos st jid kw = .ok st' ∧
      st'.logs = st.logs ∧ st'.unread = st.unread ∧ st'.jids = st.jids ∧
      ((st.archive.find?
          (fun r => r.jid_id = (resolvedId st jid).getD 0)).isSome →
        st'.archive = st.archive.map (fun r =>
          if r.jid_id = (resolvedId st jid).getD 0
          then mergeArchiveRow r kw else r)) ∧
      ((st.archive.find?
          (fun r => r.jid_id = (resolvedId st jid).getD 0)).isSome = false →
        st'.archive = st.archive ++
          [{ jid_id := (resolvedId st jid).getD 0
             last_mam_id := kw.last_mam_id
             oldest_mam_timestamp := kw.oldest_mam_timestamp
             last_muc_timestamp := kw.last_muc_timestamp
             sync_threshold := kw.sync_threshold }]) ∧
      (∀ r : ArchiveRow, kw.last_mam_id = none →
        (mergeArchiveRow r kw).last_mam_id = r.last_mam_id) ∧
      (∀ r : ArchiveRow, kw.oldest_mam_timestamp = none →
        (mergeArchiveRow r kw).oldest_mam_timestamp = r.oldest_mam_timestamp) ∧
      (∀ r : ArchiveRow, kw.last_muc_timestamp = none →
        (mergeArchiveRow r kw).last_muc_timestamp = r.last_muc_timestamp) ∧
      (∀ r : ArchiveRow, kw.sync_threshold = none →
        (mergeArchiveRow r kw).sync_threshold = r.sync_threshold) := by
  obtain ⟨c, hc⟩ := get_jid_id_known st jid none none h
  have hpost := get_jid_id_resolvedId_post st jid none none _ _ hc
  have hknown1 : jidKnown { st with jid_cache := c } jid := by
    unfold jidKnown
    rw [hpost]
    rfl
  obtain ⟨c2, hc2⟩ := get_jid_id_known { st with jid_cache := c } jid none
    (some JIDConstant.ROOM_TYPE) hknown1
  have hrid2 : (resolvedId { st with jid_cache := c } jid).getD 0 =
      (resolvedId st jid).getD 0 := by
    rw [hpost]
    rfl
  have hrun : set_archive_infos st jid kw =
      match st.archive.find?
          (fun r => r.jid_id = (resolvedId st jid).getD 0) with
      | none => .ok { st with
          jid_cache := c2
          archive := st.archive ++
            [{ jid_id := (resolvedId st jid).getD 0
               last_mam_id := kw.last_mam_id
               oldest_mam_timestamp := kw.oldest_mam_timestamp
               last_muc_timestamp := kw.last_muc_timestamp
               sync_threshold := kw.sync_threshold }] }
      | some _ => .ok { st with
          jid_cache := c2
          archive := st.archive.map (fun r =>
            if r.jid_id = (resolvedId st jid).getD 0
            then mergeArchiveRow r kw else r) } := by
    unfold set_archive_infos get_archive_infos
    rw [hc]
    simp only [exceptBind_ok]
    rw [hc2]
    simp only [exceptBind_ok, hrid2]
    cases hfind : st.archive.find?
        (fun r => r.jid_id = (resolvedId st jid).getD 0) with
    | none => rfl
    | some row =>
        simp only [if_neg hprov]
        rfl
  cases hfind : st.archive.find?
      (fun r => r.jid_id = (resolvedId st jid).getD 0) with
  | none =>
      rw [hfind] at hrun
      refine ⟨_, hrun, rfl, rfl, rfl, ?_, ?_, ?_, ?_, ?_, ?_⟩
      · intro hsome
        simp at hsome
      · intro _
        rfl
      all_goals
        intro r hr
        simp [mergeArchiveRow, hr, Option.orElse]
  | some row =>
      rw [hfind] at hrun
      refine ⟨_, hrun, rfl, rfl, rfl, ?_, ?_, ?_, ?_, ?_, ?_⟩
      · intro _
        rfl
      · intro hnone
        simp at hnone
      all_goals
        intro r hr
        simp [mergeArchiveRow, hr, Option.orElse]

/-- C8: set_archive_infos is a frame-preserving upsert.  When a checkpoint
row for the identity exists, exactly the row with its jid_id is rewritten,
each provided field to its new value and (per mergeArchiveRow and the
trailing conjuncts) each absent field to its previous value; when no row
exists, a fresh row holding exactly the provided fields is appended.  Logs,
unread entries and the jids table are untouched. -/
theorem checkpoint_partial_update (st : LoggerState) (jid : String)
    (kw : ArchiveInfoArgs) (h : jidKnown st jid)
    (hprov : ¬(kw.last_mam_id = none ∧ kw.oldest_mam_timestamp = none ∧
      kw.last_muc_timestamp = none ∧ kw.sync_threshold = none)) :
    ∃ st', set_archive_infos st jid kw = .ok st' ∧
      st'.logs = st.logs ∧ st'.unread = st.unread ∧ st'.jids = st.jids ∧
      ((st.archive.find?
          (fun r => r.jid_id = (resolvedId st jid).getD 0)).isSome →
        st'.archive = st.archive.map (fun r =>
          if r.jid_id = (resolvedId st jid).getD 0
          then mergeArchiveRow r kw else r)) ∧
      ((st.archive.find?
          (fun r => r.jid_id = (resolvedId st jid).getD 0)).isSome = false →
        st'.archive = st.archive ++
          [{ jid_id := (resolvedId st jid).getD 0
             last_mam_id := kw.last_mam_id
             oldest_mam_timestamp := kw.oldest_mam_timestamp
             last_muc_timestamp := kw.last_muc_timestamp
             sync_threshold := kw.sync_threshold }]) ∧
      (∀ r : ArchiveRow, kw.last_mam_id = none →
        (mergeArchiveRow r kw).last_mam_id = r.last_mam_id) ∧
      (∀ r : ArchiveRow, kw.oldest_mam_timestamp = none →
        (mergeArchiveRow r kw).oldest_mam_timestamp = r.oldest_mam_timestamp) ∧
      (∀ r : ArchiveRow, kw.last_muc_timestamp = none →
        (mergeArchiveRow r kw).last_muc_timestamp = r.last_muc_timestamp) ∧
      (∀ r : ArchiveRow, kw.sync_threshold = none →
        (mergeArchiveRow r kw).sync_threshold = r.sync_threshold) :=
  set_archive_infos_upsert st jid kw h hprov

/-- The update arguments used by the upsert witness: only the cursor is
provided. -/
def kwM1 : ArchiveInfoArgs :=
  { last_mam_id := some "m1"
    oldest_mam_timestamp := none
    last_muc_timestamp := none
    sync_threshold := none }

/-- Witness for the upsert theorem: sampleDirectState knows acc@s and has no
checkpoint row, so updating it appends a row holding exactly the provided
cursor. -/
theorem checkpoint_partial_update_witness :
    jidKnown sampleDirectState "acc@s" ∧
    ¬(kwM1.last_mam_id = none ∧ kwM1.oldest_mam_timestamp = none ∧
      kwM1.last_muc_timestamp = none ∧ kwM1.sync_threshold = none) ∧
    (∃ st', set_archive_infos sampleDirectState "acc@s" kwM1 = .ok st' ∧
      st'.logs = sampleDirectState.logs ∧
      st'.unread = sampleDirectState.unread ∧
      st'.jids = sampleDirectState.jids ∧
      ((sampleDirectState.archive.find? (fun r =>
          r.jid_id = (resolvedId sampleDirectState "acc@s").getD 0)).isSome →
        st'.archive = sampleDirectState.archive.map (fun r =>
          if r.jid_id = (resolvedId sampleDirectState "acc@s").getD 0
          then mergeArchiveRow r kwM1 else r)) ∧
      ((sampleDirectState.archive.find? (fun r =>
          r.jid_id = (resolvedId sampleDirectState "acc@s").getD 0)).isSome
            = false →
        st'.archive = sampleDirectState.archive ++
          [{ jid_id := (resolvedId sampleDirectState "acc@s").getD 0
             last_mam_id := kwM1.last_mam_id
             oldest_mam_timestamp := kwM1.oldest_mam_timestamp
             last_muc_timestamp := kwM1.last_muc_timestamp
             sync_threshold := kwM1.sync_threshold }]) ∧
      (∀ r : ArchiveRow, kwM1.last_mam_id = none →
        (mergeArchiveRow r kwM1).last_mam_id = r.last_mam_id) ∧
      (∀ r : ArchiveRow, kwM1.oldest_mam_timestamp = none →
        (mergeArchiveRow r kwM1).oldest_mam_timestamp
          = r.oldest_mam_timestamp) ∧
      (∀ r : ArchiveRow, kwM1.last_muc_timestamp = none →
        (mergeArchiveRow r kwM1).last_muc_timestamp
          = r.last_muc_timestamp) ∧
      (∀ r : ArchiveRow, kwM1.sync_threshold = none →
        (mergeArchiveRow r kwM1).sync_threshold = r.sync_threshold)) :=
  ⟨by decide, by decide,
   checkpoint_partial_update sampleDirectState "acc@s" kwM1 (by decide)
     (by decide)⟩

/-- search_for_duplicate only reads: logs, unread, archive and the log
counter are unchanged. -/
theorem search_for_duplicate_frame (st : LoggerState)
    (account_jid jid : String) (t : Int) (msg : String)
    (b : Bool) (st' : LoggerState)
    (h : search_for_duplicate st account_jid jid t msg = .ok (b, st')) :
    st'.logs = st.logs ∧ st'.unread = st.unread ∧ st'.archive = st.archive ∧
    st'.next_log_line_id = st.next_log_line_id := by
  unfold search_for_duplicate at h
  cases ha : get_account_id st account_jid with
  | error e =>
      rw [ha] at h
      simp [Bind.bind, Except.bind, pure, Except.pure] at h
  | ok v =>
      obtain ⟨aid, st1⟩ := v
      rw [ha] at h
      simp only [exceptBind_ok] at h
      unfold get_account_id at ha
      have hf := get_jid_id_frame st account_jid none
        (some JIDConstant.NORMAL_TYPE) aid st1 ha
      cases h
      exact ⟨hf.1, hf.2.1, hf.2.2.1, hf.2.2.2.1⟩

/-- find_stanza_id only reads: logs, unread, archive and the log counter are
unchanged. -/
theorem find_stanza_id_frame (st : LoggerState)
    (account_jid archive_jid : String) (sid oid : Option String)
    (groupchat : Bool) (b : Bool) (st' : LoggerState)
    (h : find_stanza_id st account_jid archive_jid sid oid groupchat
      = .ok (b, st')) :
    st'.logs = st.logs ∧ st'.unread = st.unread ∧ st'.archive = st.archive ∧
    st'.next_log_line_id = st.next_log_line_id := by
  unfold find_stanza_id at h
  by_cases hids : (sid.toList ++ oid.toList).isEmpty
  · simp only [hids, if_true, ite_true] at h
    cases h
    exact ⟨rfl, rfl, rfl, rfl⟩
  · simp only [hids, if_false, ite_false, Bool.false_eq_true] at h
    cases ha : get_jid_id st archive_jid none
        (some (if groupchat then JIDConstant.ROOM_TYPE
               else JIDConstant.NORMAL_TYPE)) with
    | error e =>
        rw [ha] at h
        simp [Bind.bind, Except.bind, pure, Except.pure] at h
    | ok v =>
        obtain ⟨arid, st1⟩ := v
        rw [ha] at h
        simp only [exceptBind_ok] at h
        have hfa := get_jid_id_frame st archive_jid none
          (some (if groupchat then JIDConstant.ROOM_TYPE
                 else JIDConstant.NORMAL_TYPE)) arid st1 ha
        cases hb : get_account_id st1 account_jid with
        | error e =>
            rw [hb] at h
            simp [Bind.bind, Except.bind, pure, Except.pure] at h
        | ok w =>
            obtain ⟨acid, st2⟩ := w
            rw [hb] at h
            simp only [exceptBind_ok] at h
            unfold get_account_id at hb
            have hfb := get_jid_id_frame st1 account_jid none
              (some JIDConstant.NORMAL_TYPE) acid st2 hb
            cases groupchat with
            | true =>
                simp only [if_true, ite_true] at h
                cases h
                exact ⟨hfb.1.trans hfa.1, hfb.2.1.trans hfa.2.1,
                  hfb.2.2.1.trans hfa.2.2.1, hfb.2.2.2.1.trans hfa.2.2.2.1⟩
            | false =>
                simp only [if_false, ite_false, Bool.false_eq_true] at h
                cases h
                exact ⟨hfb.1.trans hfa.1, hfb.2.1.trans hfa.2.1,
                  hfb.2.2.1.trans hfa.2.2.1, hfb.2.2.2.1.trans hfa.2.2.2.1⟩

/-- get_jid_id with a kind never fails (the kind forces a type for the
insert path). -/
theorem get_jid_id_with_kind_ok (st : LoggerState) (jid : String)
    (k : KindConstant) (type_ : Option JIDConstant) :
    ∃ i st', get_jid_id st jid (some k) type_ = .ok (i, st') := by
  unfold get_jid_id
  cases hc : cacheLookup st.jid_cache jid with
  | some row =>
      exact ⟨row.jid_id, st, by simp [hc]⟩
  | none =>
      cases ht : tableLookup st jid with
      | some row =>
          exact ⟨row.jid_id,
            { st with jid_cache := (jid, row) :: st.jid_cache },
            by simp [hc, ht]⟩
      | none =>
          by_cases hk : k = KindConstant.GC_MSG ∨ k = KindConstant.GCSTATUS
          · refine ⟨st.next_jid_id,
              { st with
                 jids := st.jids ++
                   [{ jid_id := st.next_jid_id, jid := jid,
                      type := JIDConstant.ROOM_TYPE }]
                 next_jid_id := st.next_jid_id + 1
                 jid_cache := (jid,
                   { jid_id := st.next_jid_id, jid := jid,
                     type := JIDConstant.ROOM_TYPE }) :: st.jid_cache }, ?_⟩
            simp [hc, ht, hk]
          · refine ⟨st.next_jid_id,
              { st with
                 jids := st.jids ++
                   [{ jid_id := st.next_jid_id, jid := jid,
                      type := JIDConstant.NORMAL_TYPE }]
                 next_jid_id := st.next_jid_id + 1
                 jid_cache := (jid,
                   { jid_id := st.next_jid_id, jid := jid,
                     type := JIDConstant.NORMAL_TYPE }) :: st.jid_cache }, ?_⟩
            simp [hc, ht, hk]

/-- C9 (store part): insert_into_logs appends exactly one unread entry —
whose message_id is the new row's primary key, whose jid_id is the jids-table
id of the conversation address, and whose shown flag takes the schema
default 0 — precisely when the unread flag is set and the kind is
CHAT_MSG_RECV; for every other kind (or a cleared flag) the unread table is
untouched. -/
theorem insert_into_logs_unread_spec (st : LoggerState)
    (account jid : String) (time_ : Int) (kind : KindConstant) (unre : Bool)
    (message contact_name additional_data stanza_id message_id :
      Option String) :
    ∃ rid st', insert_into_logs st account jid time_ kind unre
        message contact_name additional_data stanza_id message_id
        = .ok (rid, st') ∧
      (unre = true ∧ kind = KindConstant.CHAT_MSG_RECV →
        st'.unread = st.unread ++
          [{ message_id := rid
             jid_id := (tableLookup st' jid).map (fun r => r.jid_id)
             shown := false }]) ∧
      (¬(unre = true ∧ kind = KindConstant.CHAT_MSG_RECV) →
        st'.unread = st.unread) := by
  obtain ⟨jid_id, st1, h1⟩ := get_jid_id_with_kind_ok st jid kind none
  obtain ⟨aid, st2, h2⟩ := get_account_id_ok st1 account
  have hu1 : st1.unread = st.unread :=
    (get_jid_id_frame st jid (some kind) none jid_id st1 h1).2.1
  have hu2 : st2.unread = st1.unread := by
    unfold get_account_id at h2
    exact (get_jid_id_frame st1 account none (some JIDConstant.NORMAL_TYPE)
      aid st2 h2).2.1
  have hrun : insert_into_logs st account jid time_ kind unre
      message contact_name additional_data stanza_id message_id =
      .ok (st2.next_log_line_id,
        if unre && kind = KindConstant.CHAT_MSG_RECV then
          { st2 with
             logs := st2.logs ++
               [{ log_line_id := st2.next_log_line_id
                  account_id := aid
                  jid_id := jid_id
                  contact_name := contact_name
                  time := time_
                  kind := kind
                  message := message
                  additional_data := additional_data
                  stanza_id := stanza_id
                  message_id := message_id }]
             next_log_line_id := st2.next_log_line_id + 1
             unread := st2.unread ++
               [{ message_id := st2.next_log_line_id
                  jid_id := (tableLookup st2 jid).map (fun r => r.jid_id)
                  shown := false }] }
        else
          { st2 with
             logs := st2.logs ++
               [{ log_line_id := st2.next_log_line_id
                  account_id := aid
                  jid_id := jid_id
                  contact_name := contact_name
                  time := time_
                  kind := kind
                  message := message
                  additional_data := additional_data
                  stanza_id := stanza_id
                  message_id := message_id }]
             next_log_line_id := st2.next_log_line_id + 1 }) := by
    unfold insert_into_logs get_account_id at *
    rw [h1]
    simp only [exceptBind_ok]
    rw [h2]
    simp only [exceptBind_ok]
    rfl
  by_cases hcond : unre = true ∧ kind = KindConstant.CHAT_MSG_RECV
  · obtain ⟨hu, hk⟩ := hcond
    have hbool : (unre && kind = KindConstant.CHAT_MSG_RECV) = true := by
      simp [hu, hk]
    rw [hbool] at hrun
    simp only [reduceIte] at hrun
    refine ⟨st2.next_log_line_id, _, hrun, fun _ => ?_,
      fun hcontra => absurd ⟨hu, hk⟩ hcontra⟩
    simp only [tableLookup]
    rw [hu2, hu1]
  · have hbool : (unre && kind = KindConstant.CHAT_MSG_RECV) = false := by
      by_cases hur : unre = true
      · have hkk : ¬kind = KindConstant.CHAT_MSG_RECV := fun hk =>
          hcond ⟨hur, hk⟩
        simp [hkk]
      · rw [Bool.not_eq_true] at hur
        simp [hur]
    rw [hbool] at hrun
    simp only [Bool.false_eq_true, if_false, ite_false] at hrun
    refine ⟨st2.next_log_line_id, _, hrun,
      fun hc => absurd hc hcond, fun _ => ?_⟩
    simp only []
    rw [hu2, hu1]

/-- insert_into_logs with the unread flag cleared leaves the unread table
unchanged. -/
theorem insert_into_logs_unread_false (st : LoggerState)
    (account jid : String) (time_ : Int) (kind : KindConstant)
    (message contact_name additional_data stanza_id message_id : Option String)
    (rid : Nat) (st' : LoggerState)
    (h : insert_into_logs st account jid time_ kind false
      message contact_name additional_data stanza_id message_id
      = .ok (rid, st')) :
    st'.unread = st.unread := by
  obtain ⟨rid2, st2, hrun, _, himp⟩ := insert_into_logs_unread_spec st account
    jid time_ kind false message contact_name additional_data stanza_id
    message_id
  rw [hrun] at h
  simp only [Except.ok.injEq, Prod.mk.injEq] at h
  obtain ⟨h1, h2⟩ := h
  subst h2
  exact himp (fun hc => by simp at hc)

/-- mam_insert always reports an inserted row and, passing unread=False,
never touches the unread table. -/
theorem mam_insert_spec (st : MAMState) (account_jid with_ : String)
    (p : MsgProps) (kind : KindConstant) (sid : Option String)
    (o : MamMsgOutcome) (st' : MAMState)
    (h : mam_insert st account_jid with_ p kind sid = .ok (o, st')) :
    (∃ rid, o = .inserted rid) ∧ st'.logger.unread = st.logger.unread := by
  unfold mam_insert at h
  cases hi : insert_into_logs st.logger account_jid with_ p.mam_timestamp
      kind false (mam_msgtxt p) p.muc_nickname none sid p.id with
  | error e =>
      rw [hi] at h
      simp [Bind.bind, Except.bind, pure, Except.pure] at h
  | ok v =>
      obtain ⟨rid, lg⟩ := v
      rw [hi] at h
      simp only [exceptBind_ok, pure, Except.pure, Except.ok.injEq,
        Prod.mk.injEq] at h
      obtain ⟨ho, hst⟩ := h
      subst ho
      subst hst
      exact ⟨⟨rid, rfl⟩,
        insert_into_logs_unread_false st.logger account_jid with_
          p.mam_timestamp kind (mam_msgtxt p) p.muc_nickname none sid p.id
          rid lg hi⟩

/-- Trace facts about the tail of _mam_message_received: the unread table is
never touched; when no row is reported inserted the logs are untouched; and
a self message lacking an origin-id is rejected with the state unchanged. -/
theorem mam_rest_spec (st : MAMState) (account_jid : String) (p : MsgProps)
    (kind : KindConstant) (sid mid : Option String)
    (o : MamMsgOutcome) (st' : MAMState)
    (h : mam_message_received_rest st account_jid p kind sid mid
      = .ok (o, st')) :
    st'.logger.unread = st.logger.unread ∧
    ((∀ rid, o ≠ .inserted rid) → st'.logger.logs = st.logger.logs) ∧
    (p.is_self_message = true → mid = none →
      st' = st ∧ (o = .no_body ∨ o = .self_no_origin)) := by
  unfold mam_message_received_rest at h
  by_cases hbody : truthyStr (mam_msgtxt p) = true
  · simp only [hbody, not_true, if_false, ite_false, reduceIte,
      pure_bind] at h
    by_cases hselfcase : p.is_self_message = true ∧ mid.isNone = true
    · rw [if_pos hselfcase] at h
      simp only [pure, Except.pure, Except.ok.injEq, Prod.mk.injEq] at h
      obtain ⟨ho, hst⟩ := h
      subst ho
      subst hst
      exact ⟨rfl, fun _ => rfl, fun _ _ => ⟨rfl, Or.inr rfl⟩⟩
    · rw [if_neg hselfcase] at h
      have hselfimp : ¬(p.is_self_message = true ∧ mid = none) := by
        intro hc
        exact hselfcase ⟨hc.1, Option.isNone_iff_eq_none.mpr hc.2⟩
      by_cases hns : p.mam_ns = MamNS.v1
      · rw [if_pos hns] at h
        cases hs : search_for_duplicate st.logger account_jid p.jid_stripped
            p.mam_timestamp ((mam_msgtxt p).getD "") with
        | error e =>
            rw [hs] at h
            simp [Bind.bind, Except.bind, pure, Except.pure] at h
        | ok v =>
            obtain ⟨dup, lg⟩ := v
            rw [hs] at h
            simp only [exceptBind_ok] at h
            have hsf := search_for_duplicate_frame st.logger account_jid
              p.jid_stripped p.mam_timestamp ((mam_msgtxt p).getD "") dup lg hs
            by_cases hdup : dup = true
            · rw [if_pos hdup] at h
              simp only [pure, Except.pure, Except.ok.injEq,
                Prod.mk.injEq] at h
              obtain ⟨ho, hst⟩ := h
              subst ho
              subst hst
              exact ⟨hsf.2.1, fun _ => hsf.1,
                fun h1 h2 => absurd ⟨h1, h2⟩ hselfimp⟩
            · rw [if_neg hdup] at h
              obtain ⟨⟨rid, hrid⟩, hunread⟩ :=
                mam_insert_spec _ _ _ _ _ _ _ _ h
              exact ⟨hunread.trans hsf.2.1,
                fun hno => absurd hrid (hno rid),
                fun h1 h2 => absurd ⟨h1, h2⟩ hselfimp⟩
      · rw [if_neg hns] at h
        obtain ⟨⟨rid, hrid⟩, hunread⟩ := mam_insert_spec _ _ _ _ _ _ _ _ h
        exact ⟨hunread, fun hno => absurd hrid (hno rid),
          fun h1 h2 => absurd ⟨h1, h2⟩ hselfimp⟩
  · simp only [hbody, if_true, ite_true, reduceIte, Bool.not_eq_true] at h
    simp only [pure, Except.pure, Except.ok.injEq, Prod.mk.injEq] at h
    obtain ⟨ho, hst⟩ := h
    subst ho
    subst hst
    exact ⟨rfl, fun _ => rfl, fun _ _ => ⟨rfl, Or.inl rfl⟩⟩

/-- Trace facts about _mam_message_received: the unread table is never
touched; when no row is reported inserted the logs are untouched; and a self
message carrying no client id is never inserted. -/
theorem mam_received_spec (st : MAMState) (own_bare account_jid : String)
    (p : MsgProps) (o : MamMsgOutcome) (st' : MAMState)
    (h : mam_message_received st own_bare account_jid p = .ok (o, st')) :
    st'.logger.unread = st.logger.unread ∧
    ((∀ rid, o ≠ .inserted rid) → st'.logger.logs = st.logger.logs) ∧
    (p.is_self_message = true → p.id = none →
      ∀ rid, o ≠ .inserted rid) := by
  have hmid : ∀ sid mid, get_unique_id own_bare p = (sid, mid) →
      p.is_self_message = true → p.id = none → mid = none := by
    intro sid mid hgu hself hid
    unfold get_unique_id at hgu
    by_cases hgc2 : p.is_groupchat = true
    · rw [if_pos hgc2] at hgu
      simp only [Prod.mk.injEq] at hgu
      exact hgu.2.symm
    · rw [if_neg hgc2, if_pos hself] at hgu
      simp only [Prod.mk.injEq] at hgu
      rw [← hgu.2, hid]
  unfold mam_message_received at h
  rcases hgu : get_unique_id own_bare p with ⟨sid, mid⟩
  rw [hgu] at h
  by_cases h1 : p.is_mam_message = true
  case neg =>
    simp only [h1, Bool.false_eq_true, not_false_eq_true, if_true, ite_true,
      pure, Except.pure, Except.ok.injEq, Prod.mk.injEq] at h
    obtain ⟨ho, hst⟩ := h
    subst ho
    subst hst
    exact ⟨rfl, fun _ => rfl, fun _ _ rid => by simp⟩
  case pos =>
  by_cases h2 : from_valid_archive own_bare p = true
  case neg =>
    simp only [h1, h2, eq_self_iff_true, not_true, not_false_eq_true,
      if_true, ite_true, if_false, ite_false, Bool.false_eq_true,
      exceptBind_ok, pure, Except.pure, Except.ok.injEq,
      Prod.mk.injEq] at h
    obtain ⟨ho, hst⟩ := h
    subst ho
    subst hst
    exact ⟨rfl, fun _ => rfl, fun _ _ rid => by simp⟩
  case pos =>
  by_cases h3 : is_valid_request st p = true
  case neg =>
    simp only [h1, h2, h3, eq_self_iff_true, not_true, not_false_eq_true,
      if_true, ite_true, if_false, ite_false, Bool.false_eq_true,
      exceptBind_ok, pure, Except.pure, Except.ok.injEq,
      Prod.mk.injEq] at h
    obtain ⟨ho, hst⟩ := h
    subst ho
    subst hst
    exact ⟨rfl, fun _ => rfl, fun _ _ rid => by simp⟩
  case pos =>
  simp only [h1, h2, h3, eq_self_iff_true, not_true, if_false, ite_false,
    Bool.false_eq_true, exceptBind_ok] at h
  by_cases hns2 : p.mam_ns = MamNS.v2
  · simp only [hns2, if_true, ite_true, reduceIte] at h
    cases hf : find_stanza_id st.logger account_jid p.mam_archive sid mid
        p.is_groupchat with
    | error e =>
        rw [hf] at h
        simp [Bind.bind, Except.bind, pure, Except.pure] at h
    | ok v =>
        obtain ⟨dup, lg⟩ := v
        rw [hf] at h
        simp only [exceptBind_ok, pure_bind] at h
        have hff := find_stanza_id_frame st.logger account_jid p.mam_archive
          sid mid p.is_groupchat dup lg hf
        by_cases hdup : dup = true
        · simp only [hdup, eq_self_iff_true, if_true, ite_true, reduceIte,
            pure, Except.pure, Except.ok.injEq, Prod.mk.injEq] at h
          obtain ⟨ho, hst⟩ := h
          subst ho
          subst hst
          exact ⟨hff.2.1, fun _ => hff.1, fun _ _ rid => by simp⟩
        · simp only [hdup, if_false, ite_false, Bool.false_eq_true,
            reduceIte] at h
          obtain ⟨hr1, hr2, hr3⟩ := mam_rest_spec _ _ _ _ _ _ _ _ h
          refine ⟨hr1.trans hff.2.1, fun hno => (hr2 hno).trans hff.1, ?_⟩
          intro hself hid rid hins
          rcases (hr3 hself (hmid sid mid hgu hself hid)).2 with hc | hc <;>
            simp [hins] at hc
  · simp only [hns2, if_false, ite_false, Bool.false_eq_true, reduceIte] at h
    obtain ⟨hr1, hr2, hr3⟩ := mam_rest_spec _ _ _ _ _ _ _ _ h
    refine ⟨hr1, hr2, ?_⟩
    intro hself hid rid hins
    rcases (hr3 hself (hmid sid mid hgu hself hid)).2 with hc | hc <;>
      simp [hins] at hc

/-- C9: an unread entry (shown flag 0, pairing the new row's key with the
conversation identity) is created exactly when a received chat message is
admitted with the unread flag set, and for no other message kind; and a
message the archive sync drops as duplicate (stable-id or fallback) leaves
both the unread table and the logs untouched. -/
theorem unread_ledger_spec :
    (∀ (st : LoggerState) (account jid : String) (time_ : Int)
      (kind : KindConstant) (unre : Bool)
      (message contact_name additional_data stanza_id message_id :
        Option String),
      ∃ rid st', insert_into_logs st account jid time_ kind unre
          message contact_name additional_data stanza_id message_id
          = .ok (rid, st') ∧
        (unre = true ∧ kind = KindConstant.CHAT_MSG_RECV →
          st'.unread = st.unread ++
            [{ message_id := rid
               jid_id := (tableLookup st' jid).map (fun r => r.jid_id)
               shown := false }]) ∧
        (¬(unre = true ∧ kind = KindConstant.CHAT_MSG_RECV) →
          st'.unread = st.unread)) ∧
    (∀ (st : MAMState) (own_bare account_jid : String) (p : MsgProps)
      (o : MamMsgOutcome) (st' : MAMState),
      mam_message_received st own_bare account_jid p = .ok (o, st') →
      (o = .dup_stanza_id ∨ o = .dup_fallback) →
      st'.logger.unread = st.logger.unread ∧
      st'.logger.logs = st.logger.logs) := by
  constructor
  · exact insert_into_logs_unread_spec
  · intro st own_bare account_jid p o st' h ho
    obtain ⟨h1, h2, _⟩ := mam_received_spec st own_bare account_jid p o st' h
    refine ⟨h1, h2 ?_⟩
    intro rid
    rcases ho with ho | ho <;> simp [ho]

/-- A MAM module state holding one stored direct-chat message with stanza-id
SID1 and a registered personal-archive query with id 7. -/
def mamDupState : MAMState :=
  { logger := { jid_cache := [("acc@s", ⟨1, "acc@s", .NORMAL_TYPE⟩),
                  ("bob@s", ⟨2, "bob@s", .NORMAL_TYPE⟩)]
                jids := [⟨1, "acc@s", .NORMAL_TYPE⟩,
                  ⟨2, "bob@s", .NORMAL_TYPE⟩]
                next_jid_id := 3
                logs := [⟨1, 1, 2, none, 1000, .CHAT_MSG_RECV, some "hello",
                  none, some "SID1", none⟩]
                next_log_line_id := 2
                unread := []
                archive := [] }
    mam_query_ids := [("acc@s", 7)]
    catch_up_finished := []
    pending := []
    an_id := 8 }

/-- An archived direct-chat message from bob@s duplicating the stored row
(same stanza-id SID1), delivered under the registered query id. -/
def pDup : MsgProps :=
  { is_mam_message := true
    is_groupchat := false
    is_self_message := false
    is_muc_pm := false
    from_bare := "bob@s"
    mam_archive := "acc@s"
    mam_id := some "SID1"
    id := none
    mam_ns := .v2
    mam_timestamp := 1005
    body := some "hello"
    is_encrypted := false
    eme := none
    jid_stripped := "bob@s"
    muc_nickname := none
    mam_query_id := 7 }

/-- Witness for the unread-ledger theorem: processing the concrete duplicate
message yields the dup_stanza_id outcome and leaves unread and logs
untouched. -/
theorem unread_ledger_spec_witness :
    mam_message_received mamDupState "acc@s" "acc@s" pDup
      = .ok (.dup_stanza_id, mamDupState) ∧
    (MamMsgOutcome.dup_stanza_id = MamMsgOutcome.dup_stanza_id ∨
      MamMsgOutcome.dup_stanza_id = MamMsgOutcome.dup_fallback) ∧
    (mamDupState.logger.unread = mamDupState.logger.unread ∧
      mamDupState.logger.logs = mamDupState.logger.logs) :=
  ⟨rfl, Or.inl rfl,
   unread_ledger_spec.2 mamDupState "acc@s" "acc@s" pDup
     MamMsgOutcome.dup_stanza_id mamDupState rfl (Or.inl rfl)⟩

/-- C3: an archived direct-chat self message with no client origin-id is
rejected outright — whatever archive stanza-id it carries, no row is
inserted and the logs are unchanged; and for self messages the archive
stanza-id plays no role at all: the whole processing result is independent
of it, so duplicate matching uses only the origin-id. -/
theorem self_message_handling (st : MAMState)
    (own_bare account_jid : String) (p : MsgProps)
    (hself : p.is_self_message = true) (hgc : p.is_groupchat = false) :
    (p.id = none → ∀ o st',
      mam_message_received st own_bare account_jid p = .ok (o, st') →
      (∀ rid, o ≠ .inserted rid) ∧ st'.logger.logs = st.logger.logs) ∧
    (∀ x, mam_message_received st own_bare account_jid p
      = mam_message_received st own_bare account_jid
          { p with mam_id := x }) := by
  constructor
  · intro hid o st' h
    obtain ⟨_, hlogs, hnoins⟩ :=
      mam_received_spec st own_bare account_jid p o st' h
    have hno := hnoins hself hid
    exact ⟨hno, hlogs hno⟩
  · intro x
    obtain ⟨f1, f2, f3, f4, f5, f6, f7, f8, f9, f10, f11, f12, f13, f14,
      f15, f16⟩ := p
    simp only at hself hgc
    subst hself
    subst hgc
    rfl

/-- The stored continuation cursor of a scope: the last_mam_id column of the
checkpoint row of the jid's identity. -/
def archiveCursor (st : LoggerState) (jid : String) : Option String :=
  (st.archive.find? (fun r => r.jid_id = (resolvedId st jid).getD 0)).bind
    (fun r => r.last_mam_id)

/-- The stored oldest-synced timestamp of a scope. -/
def archiveOldest (st : LoggerState) (jid : String) : Option Int :=
  (st.archive.find? (fun r => r.jid_id = (resolvedId st jid).getD 0)).bind
    (fun r => r.oldest_mam_timestamp)

/-- mergeArchiveRow keeps the row's key. -/
theorem mergeArchiveRow_jid_id (r : ArchiveRow) (kw : ArchiveInfoArgs) :
    (mergeArchiveRow r kw).jid_id = r.jid_id := rfl

/-- Finding the updated row in the UPDATE image of the archive table. -/
theorem find?_map_update (archive : List ArchiveRow) (rid : Nat)
    (kw : ArchiveInfoArgs) :
    (archive.map (fun r =>
        if r.jid_id = rid then mergeArchiveRow r kw else r)).find?
      (fun r => r.jid_id = rid)
    = (archive.find? (fun r => r.jid_id = rid)).map
        (fun r => mergeArchiveRow r kw) := by
  induction archive with
  | nil => rfl
  | cons a tl ih =>
      by_cases ha : a.jid_id = rid
      · simp [List.find?_cons, ha, mergeArchiveRow]
      · simp [List.find?_cons, ha, ih]

/-- set_archive_infos keeps the resolved id of every known jid. -/
theorem set_archive_infos_resolved (st : LoggerState) (jid : String)
    (kw : ArchiveInfoArgs) (st' : LoggerState)
    (h : set_archive_infos st jid kw = .ok st')
    (jid2 : String) (h2 : jidKnown st jid2) :
    resolvedId st' jid2 = resolvedId st jid2 := by
  unfold set_archive_infos get_archive_infos at h
  cases h1 : get_jid_id st jid none none with
  | error e =>
      rw [h1] at h
      simp [Bind.bind, Except.bind, pure, Except.pure] at h
  | ok v =>
      obtain ⟨i1, st1⟩ := v
      rw [h1] at h
      simp only [exceptBind_ok] at h
      have hp1 := resolvedId_preserved st jid none none i1 st1 h1 jid2 h2
      have h2b : jidKnown st1 jid2 := by
        unfold jidKnown
        rw [hp1]
        exact h2
      cases h3 : get_jid_id st1 jid none (some JIDConstant.ROOM_TYPE) with
      | error e =>
          rw [h3] at h
          simp [Bind.bind, Except.bind, pure, Except.pure] at h
      | ok w =>
          obtain ⟨i2, st2⟩ := w
          rw [h3] at h
          simp only [exceptBind_ok] at h
          have hp2 := resolvedId_preserved st1 jid none
            (some JIDConstant.ROOM_TYPE) i2 st2 h3 jid2 h2b
          cases hfind : st2.archive.find? (fun r => r.jid_id = i2) with
          | none =>
              rw [hfind] at h
              simp only [exceptBind_ok, pure, Except.pure,
                Except.ok.injEq] at h
              subst h
              rw [← hp1, ← hp2]
              rfl
          | some row =>
              rw [hfind] at h
              simp only [exceptBind_ok, pure, Except.pure,
                Except.ok.injEq] at h
              by_cases hkw : kw.last_mam_id = none ∧
                  kw.oldest_mam_timestamp = none ∧
                  kw.last_muc_timestamp = none ∧ kw.sync_threshold = none
              · rw [if_pos hkw] at h
                simp [throw, throwThe, MonadExceptOf.throw] at h
              · rw [if_neg hkw] at h
                simp only [Except.ok.injEq] at h
                subst h
                rw [← hp1, ← hp2]
                rfl

/-- Replacing the value at an already-present key in the assoc list. -/
theorem find?_map_setKey (k : String) (v : Nat) :
    ∀ m : List (String × Nat), (m.find? (fun p => p.1 = k)).isSome →
    (m.map (fun p => if p.1 = k then (k, v) else p)).find?
      (fun p => p.1 = k) = some (k, v) := by
  intro m
  induction m with
  | nil =>
      intro hpres
      simp at hpres
  | cons a tl ih =>
      intro hpres
      by_cases ha : a.1 = k
      · simp [List.find?_cons, ha]
      · simp only [List.find?_cons, ha, decide_False] at hpres
        simp only [List.map_cons, if_neg ha]
        simp only [List.find?_cons, ha, decide_False]
        exact ih hpres

/-- The replacing dict update always leaves the key bound to the new
value. -/
theorem dictSet_find (m : List (String × Nat)) (k : String) (v : Nat) :
    (dictSet m k v).find? (fun p => p.1 = k) = some (k, v) := by
  unfold dictSet
  by_cases hpres : (m.find? (fun p => p.1 = k)).isSome
  · rw [if_pos hpres]
    exact find?_map_setKey k v m hpres
  · rw [if_neg hpres]
    rw [Option.not_isSome_iff_eq_none] at hpres
    simp [List.find?_append, hpres]

/-- Effect of set_archive_infos on the checkpoint row of the jid itself: the
resolved id is stable and the row afterwards is the merge of the old row with
the provided fields (or a fresh row holding exactly the provided fields). -/
theorem set_archive_row (st : LoggerState) (jid : String)
    (kw : ArchiveInfoArgs) (st' : LoggerState)
    (h : set_archive_infos st jid kw = .ok st') (hknown : jidKnown st jid)
    (hprov : ¬(kw.last_mam_id = none ∧ kw.oldest_mam_timestamp = none ∧
      kw.last_muc_timestamp = none ∧ kw.sync_threshold = none)) :
    resolvedId st' jid = resolvedId st jid ∧
    st'.archive.find? (fun r => r.jid_id = (resolvedId st jid).getD 0) =
      some (match st.archive.find?
          (fun r => r.jid_id = (resolvedId st jid).getD 0) with
        | some old => mergeArchiveRow old kw
        | none =>
          { jid_id := (resolvedId st jid).getD 0
            last_mam_id := kw.last_mam_id
            oldest_mam_timestamp := kw.oldest_mam_timestamp
            last_muc_timestamp := kw.last_muc_timestamp
            sync_threshold := kw.sync_threshold }) := by
  obtain ⟨st2, hrun, _, _, _, hupd, hins, _, _, _, _⟩ :=
    set_archive_infos_upsert st jid kw hknown hprov
  rw [hrun] at h
  simp only [Except.ok.injEq] at h
  subst h
  refine ⟨set_archive_infos_resolved st jid kw st2 hrun jid hknown, ?_⟩
  cases hfind : st.archive.find?
      (fun r => r.jid_id = (resolvedId st jid).getD 0) with
  | some old =>
      rw [hupd (by simp [hfind])]
      rw [find?_map_update]
      rw [hfind]
      rfl
  | none =>
      rw [hins (by simp [hfind])]
      rw [List.find?_append, hfind]
      simp

/-- Setting the cursor stores the cursor. -/
theorem archiveCursor_after_set (st : LoggerState) (jid : String)
    (kw : ArchiveInfoArgs) (st' : LoggerState) (l : String)
    (h : set_archive_infos st jid kw = .ok st') (hknown : jidKnown st jid)
    (hl : kw.last_mam_id = some l)
    (hprov : ¬(kw.last_mam_id = none ∧ kw.oldest_mam_timestamp = none ∧
      kw.last_muc_timestamp = none ∧ kw.sync_threshold = none)) :
    archiveCursor st' jid = some l := by
  obtain ⟨hres, hrow⟩ := set_archive_row st jid kw st' h hknown hprov
  unfold archiveCursor
  rw [hres, hrow]
  cases hfind : st.archive.find?
      (fun r => r.jid_id = (resolvedId st jid).getD 0) with
  | some old => simp [mergeArchiveRow, hl, Option.orElse]
  | none => simp [hl]

/-- A set that does not provide the oldest-synced field keeps it. -/
theorem archiveOldest_after_set_none (st : LoggerState) (jid : String)
    (kw : ArchiveInfoArgs) (st' : LoggerState)
    (h : set_archive_infos st jid kw = .ok st') (hknown : jidKnown st jid)
    (ho : kw.oldest_mam_timestamp = none)
    (hprov : ¬(kw.last_mam_id = none ∧ kw.oldest_mam_timestamp = none ∧
      kw.last_muc_timestamp = none ∧ kw.sync_threshold = none)) :
    archiveOldest st' jid = archiveOldest st jid := by
  obtain ⟨hres, hrow⟩ := set_archive_row st jid kw st' h hknown hprov
  unfold archiveOldest
  rw [hres, hrow]
  cases hfind : st.archive.find?
      (fun r => r.jid_id = (resolvedId st jid).getD 0) with
  | some old => simp [mergeArchiveRow, ho, Option.orElse]
  | none => simp [ho]

/-- A set providing the oldest-synced field stores it. -/
theorem archiveOldest_after_set_some (st : LoggerState) (jid : String)
    (kw : ArchiveInfoArgs) (st' : LoggerState) (d : Int)
    (h : set_archive_infos st jid kw = .ok st') (hknown : jidKnown st jid)
    (ho : kw.oldest_mam_timestamp = some d)
    (hprov : ¬(kw.last_mam_id = none ∧ kw.oldest_mam_timestamp = none ∧
      kw.last_muc_timestamp = none ∧ kw.sync_threshold = none)) :
    archiveOldest st' jid = some d := by
  obtain ⟨hres, hrow⟩ := set_archive_row st jid kw st' h hknown hprov
  unfold archiveOldest
  rw [hres, hrow]
  cases hfind : st.archive.find?
      (fun r => r.jid_id = (resolvedId st jid).getD 0) with
  | some old => simp [mergeArchiveRow, ho, Option.orElse]
  | none => simp [ho]

/-- set_archive_infos keeps knownness of every known jid. -/
theorem set_archive_infos_known (st : LoggerState) (jid : String)
    (kw : ArchiveInfoArgs) (st' : LoggerState)
    (h : set_archive_infos st jid kw = .ok st')
    (jid2 : String) (h2 : jidKnown st jid2) : jidKnown st' jid2 := by
  unfold jidKnown
  rw [set_archive_infos_resolved st jid kw st' h jid2 h2]
  exact h2

/-- The incomplete-page step of _result_finished: the cursor is persisted to
the checkpoint, the next page query (an `after` query on that very cursor)
is handed to the connection, the scope stays resolvable and in flight, and
the oldest-synced timestamp is untouched. -/
theorem result_finished_page (st : MAMState) (own_jid : String)
    (from_ : Option String) (l : String) (sd : Option Int) (g : Bool)
    (now : Int) (hknown : jidKnown st.logger (from_.getD own_jid))
    (hinflight : (st.mam_query_ids.find?
      (fun q => q.1 = from_.getD own_jid)).isSome) :
    ∃ st', result_finished st own_jid
        { valid := true, from_ := from_, last := some l, complete := false }
        sd g now = .ok st' ∧
      archiveCursor st'.logger (from_.getD own_jid) = some l ∧
      (∃ pq : PendingQuery, st'.pending = st.pending ++ [pq] ∧
        pq.query.after = some l ∧ pq.start_date = none) ∧
      jidKnown st'.logger (from_.getD own_jid) ∧
      (st'.mam_query_ids.find?
        (fun q => q.1 = from_.getD own_jid)).isSome ∧
      archiveOldest st'.logger (from_.getD own_jid)
        = archiveOldest st.logger (from_.getD own_jid) := by
  obtain ⟨logger', hset, _⟩ :=
    set_archive_infos_upsert st.logger (from_.getD own_jid)
      { last_mam_id := some l, oldest_mam_timestamp := none,
        last_muc_timestamp := none, sync_threshold := none } hknown (by simp)
  obtain ⟨pr, hpr⟩ := Option.isSome_iff_exists.mp hinflight
  have hpop : dictPop st.mam_query_ids (from_.getD own_jid)
      = .ok (pr.2, st.mam_query_ids.filter
          (fun q => ¬(q.1 = from_.getD own_jid))) := by
    unfold dictPop
    rw [hpr]
  have hrun : result_finished st own_jid
      { valid := true, from_ := from_, last := some l, complete := false }
      sd g now = .ok
      { logger := logger'
        mam_query_ids := dictSet (st.mam_query_ids.filter
          (fun q => ¬(q.1 = from_.getD own_jid)))
          (from_.getD own_jid) st.an_id
        catch_up_finished := st.catch_up_finished
        pending := st.pending ++
          [{ query := mkQuery st.an_id (some (from_.getD own_jid)) none
               (some l)
             query_id := st.an_id
             start_date := none
             groupchat := g }]
        an_id := st.an_id + 1 } := by
    unfold result_finished get_query_id send_archive_query
    simp only [eq_self_iff_true, not_true, if_false, ite_false,
      Bool.false_eq_true, not_false_eq_true, if_true, ite_true,
      exceptBind_ok, pure_bind]
    rw [hset]
    simp only [exceptBind_ok]
    rw [hpop]
    simp only [exceptBind_ok]
    rfl
  refine ⟨_, hrun, ?_, ⟨_, rfl, rfl, rfl⟩, ?_, ?_, ?_⟩
  · exact archiveCursor_after_set st.logger (from_.getD own_jid) _ logger' l
      hset hknown rfl (by simp)
  · exact set_archive_infos_known st.logger (from_.getD own_jid) _ logger'
      hset (from_.getD own_jid) hknown
  · simp [dictSet_find]
  · exact archiveOldest_after_set_none st.logger (from_.getD own_jid) _
      logger' hset hknown rfl (by simp)

/-- A run of N successive incomplete page responses for one scope, each
handled by _result_finished. -/
def process_pages (own_jid : String) (from_ : Option String) (g : Bool)
    (now : Int) : MAMState → List String → Except String MAMState
  | st, [] => .ok st
  | st, l :: ls => do
      let st' ← result_finished st own_jid
        { valid := true, from_ := from_, last := some l, complete := false }
        none g now
      process_pages own_jid from_ g now st' ls

/-- After processing a nonempty run of page responses the stored cursor is
the cursor of the last response. -/
theorem process_pages_cursor (own_jid : String) (from_ : Option String)
    (g : Bool) (now : Int) :
    ∀ (cursors : List String) (st : MAMState),
      jidKnown st.logger (from_.getD own_jid) →
      (st.mam_query_ids.find?
        (fun q => q.1 = from_.getD own_jid)).isSome →
      cursors ≠ [] →
      ∃ st', process_pages own_jid from_ g now st cursors = .ok st' ∧
        archiveCursor st'.logger (from_.getD own_jid)
          = cursors.getLast? := by
  intro cursors
  induction cursors with
  | nil =>
      intro st _ _ hne
      exact absurd rfl hne
  | cons l ls ih =>
      intro st hknown hinflight _
      obtain ⟨st1, hrun, hcur, _, hknown1, hinflight1, _⟩ :=
        result_finished_page st own_jid from_ l none g now hknown hinflight
      cases ls with
      | nil =>
          refine ⟨st1, ?_, ?_⟩
          · unfold process_pages
            rw [hrun]
            simp only [exceptBind_ok]
            rfl
          · simpa using hcur
      | cons l2 tl =>
          obtain ⟨st2, hrun2, hcur2⟩ := ih st1 hknown1 hinflight1 (by simp)
          refine ⟨st2, ?_, ?_⟩
          · unfold process_pages
            rw [hrun]
            simp only [exceptBind_ok]
            exact hrun2
          · rw [hcur2]
            simp

/-- C4: pagination cursor persistence.  An incomplete page response makes
_result_finished persist the page's cursor to the checkpoint in the same
step in which the next page query — an RSM `after` query on exactly that
cursor — is issued; consequently after any nonempty run of page responses
the stored cursor equals the cursor of the last response. -/
theorem pagination_cursor_persistence (st : MAMState) (own_jid : String)
    (from_ : Option String) (g : Bool) (now : Int)
    (hknown : jidKnown st.logger (from_.getD own_jid))
    (hinflight : (st.mam_query_ids.find?
      (fun q => q.1 = from_.getD own_jid)).isSome) :
    (∀ (l : String) (sd : Option Int), ∃ st',
      result_finished st own_jid
        { valid := true, from_ := from_, last := some l, complete := false }
        sd g now = .ok st' ∧
      archiveCursor st'.logger (from_.getD own_jid) = some l ∧
      ∃ pq : PendingQuery, st'.pending = st.pending ++ [pq] ∧
        pq.query.after = some l) ∧
    (∀ cursors : List String, cursors ≠ [] →
      ∃ st', process_pages own_jid from_ g now st cursors = .ok st' ∧
        archiveCursor st'.logger (from_.getD own_jid)
          = cursors.getLast?) := by
  constructor
  · intro l sd
    obtain ⟨st', hrun, hcur, ⟨pq, hp, ha, _⟩, _⟩ :=
      result_finished_page st own_jid from_ l sd g now hknown hinflight
    exact ⟨st', hrun, hcur, pq, hp, ha⟩
  · intro cursors hne
    exact process_pages_cursor own_jid from_ g now cursors st hknown
      hinflight hne

/-- Witness for the pagination theorem at the concrete in-flight store. -/
theorem pagination_cursor_persistence_witness :
    jidKnown mamDupState.logger ((none : Option String).getD "acc@s") ∧
    (mamDupState.mam_query_ids.find?
      (fun q => q.1 = (none : Option String).getD "acc@s")).isSome = true ∧
    ((∀ (l : String) (sd : Option Int), ∃ st',
      result_finished mamDupState "acc@s"
        { valid := true, from_ := none, last := some l, complete := false }
        sd false 999 = .ok st' ∧
      archiveCursor st'.logger ((none : Option String).getD "acc@s")
        = some l ∧
      ∃ pq : PendingQuery, st'.pending = mamDupState.pending ++ [pq] ∧
        pq.query.after = some l) ∧
    (∀ cursors : List String, cursors ≠ [] →
      ∃ st', process_pages "acc@s" none false 999 mamDupState cursors
          = .ok st' ∧
        archiveCursor st'.logger ((none : Option String).getD "acc@s")
          = cursors.getLast?)) :=
  ⟨by decide, by decide,
   pagination_cursor_persistence mamDupState "acc@s" none false 999
     (by decide) (by decide)⟩

/-- A set that does not provide the cursor field keeps it. -/
theorem archiveCursor_after_set_none (st : LoggerState) (jid : String)
    (kw : ArchiveInfoArgs) (st' : LoggerState)
    (h : set_archive_infos st jid kw = .ok st') (hknown : jidKnown st jid)
    (hl : kw.last_mam_id = none)
    (hprov : ¬(kw.last_mam_id = none ∧ kw.oldest_mam_timestamp = none ∧
      kw.last_muc_timestamp = none ∧ kw.sync_threshold = none)) :
    archiveCursor st' jid = archiveCursor st jid := by
  obtain ⟨hres, hrow⟩ := set_archive_row st jid kw st' h hknown hprov
  unfold archiveCursor
  rw [hres, hrow]
  cases hfind : st.archive.find?
      (fun r => r.jid_id = (resolvedId st jid).getD 0) with
  | some old => simp [mergeArchiveRow, hl, Option.orElse]
  | none => simp [hl]

/-- The completion step of _result_finished: the final cursor is persisted,
the scope is appended to the caught-up list, and the oldest-synced timestamp
is persisted exactly when the callback carries a start date for a
non-group-chat scope — in every other completion it is untouched. -/
theorem result_finished_complete (st : MAMState) (own_jid : String)
    (from_ : Option String) (l : String) (sd : Option Int) (g : Bool)
    (now : Int) (hknown : jidKnown st.logger (from_.getD own_jid))
    (hinflight : (st.mam_query_ids.find?
      (fun q => q.1 = from_.getD own_jid)).isSome) :
    ∃ st', result_finished st own_jid
        { valid := true, from_ := from_, last := some l, complete := true }
        sd g now = .ok st' ∧
      archiveCursor st'.logger (from_.getD own_jid) = some l ∧
      st'.catch_up_finished = st.catch_up_finished ++ [from_.getD own_jid] ∧
      (∀ d : Int, sd = some d → g = false →
        archiveOldest st'.logger (from_.getD own_jid) = some d) ∧
      (sd = none ∨ g = true →
        archiveOldest st'.logger (from_.getD own_jid)
          = archiveOldest st.logger (from_.getD own_jid)) := by
  obtain ⟨logger1, hset1, _⟩ :=
    set_archive_infos_upsert st.logger (from_.getD own_jid)
      { last_mam_id := some l, oldest_mam_timestamp := none,
        last_muc_timestamp := some now, sync_threshold := none } hknown (by simp)
  have hknown1 : jidKnown logger1 (from_.getD own_jid) :=
    set_archive_infos_known st.logger (from_.getD own_jid) _ logger1 hset1
      (from_.getD own_jid) hknown
  obtain ⟨pr, hpr⟩ := Option.isSome_iff_exists.mp hinflight
  have hpop : dictPop st.mam_query_ids (from_.getD own_jid)
      = .ok (pr.2, st.mam_query_ids.filter
          (fun q => ¬(q.1 = from_.getD own_jid))) := by
    unfold dictPop
    rw [hpr]
  by_cases hc : sd.isSome = true ∧ ¬g = true
  · obtain ⟨d, hd⟩ := Option.isSome_iff_exists.mp hc.1
    obtain ⟨logger2, hset2, _⟩ :=
      set_archive_infos_upsert logger1 (from_.getD own_jid)
        { last_mam_id := none, oldest_mam_timestamp := sd,
          last_muc_timestamp := none, sync_threshold := none } hknown1
        (by intro hq; rw [hd] at hq; exact absurd hq.2.1 (by simp))
    have hrun : result_finished st own_jid
        { valid := true, from_ := from_, last := some l, complete := true }
        sd g now = .ok
        { logger := logger2
          mam_query_ids := st.mam_query_ids.filter
            (fun q => ¬(q.1 = from_.getD own_jid))
          catch_up_finished := st.catch_up_finished ++ [from_.getD own_jid]
          pending := st.pending
          an_id := st.an_id } := by
      unfold result_finished
      simp only [eq_self_iff_true, not_true, if_false, ite_false,
        Bool.false_eq_true, not_false_eq_true, if_true, ite_true,
        exceptBind_ok, pure_bind]
      rw [hpop]
      simp only [exceptBind_ok]
      rw [hset1]
      simp only [exceptBind_ok]
      rw [if_pos hc]
      rw [hset2]
      simp only [exceptBind_ok, pure_bind]
      rfl
    refine ⟨_, hrun, ?_, rfl, ?_, ?_⟩
    · rw [archiveCursor_after_set_none logger1 (from_.getD own_jid) _
        logger2 hset2 hknown1 rfl (by simp [hd])]
      exact archiveCursor_after_set st.logger (from_.getD own_jid) _ logger1
        l hset1 hknown rfl (by simp)
    · intro d2 hd2 _
      exact archiveOldest_after_set_some logger1 (from_.getD own_jid) _
        logger2 d2 hset2 hknown1 (by rw [hd2]) (by simp [hd])
    · intro hcase
      rcases hcase with hcase | hcase
      · rw [hcase] at hd
        simp at hd
      · exact absurd hcase hc.2
  · have hrun : result_finished st own_jid
        { valid := true, from_ := from_, last := some l, complete := true }
        sd g now = .ok
        { logger := logger1
          mam_query_ids := st.mam_query_ids.filter
            (fun q => ¬(q.1 = from_.getD own_jid))
          catch_up_finished := st.catch_up_finished ++ [from_.getD own_jid]
          pending := st.pending
          an_id := st.an_id } := by
      unfold result_finished
      simp only [eq_self_iff_true, not_true, if_false, ite_false,
        Bool.false_eq_true, not_false_eq_true, if_true, ite_true,
        exceptBind_ok, pure_bind]
      rw [hpop]
      simp only [exceptBind_ok]
      rw [hset1]
      simp only [exceptBind_ok]
      rw [if_neg hc]
      rfl
    refine ⟨_, hrun, ?_, rfl, ?_, ?_⟩
    · exact archiveCursor_after_set st.logger (from_.getD own_jid) _ logger1
        l hset1 hknown rfl (by simp)
    · intro d hd hg
      exact absurd ⟨by rw [hd]; rfl, by rw [hg]; simp⟩ hc
    · intro _
      exact archiveOldest_after_set_none st.logger (from_.getD own_jid) _
        logger1 hset1 hknown rfl (by simp)

/-- request_archive_on_signin with no stored checkpoint and no legacy config
cursor issues a first-run bootstrap query from now minus 7 days, recording
that start date in the callback arguments of the query (groupchat=False). -/
theorem signin_bootstrap (st : MAMState) (own_jid : String) (now : Int)
    (config : Option String)
    (hguard : (st.mam_query_ids.find?
      (fun q => q.1 = own_jid)).isSome = false)
    (hknown : jidKnown st.logger own_jid)
    (harchive : st.logger.archive.find?
      (fun r => r.jid_id = (resolvedId st.logger own_jid).getD 0) = none)
    (hconfig : truthyStr config = false) :
    ∃ st', request_archive_on_signin st own_jid now config = .ok st' ∧
      ∃ pq : PendingQuery, st'.pending = st.pending ++ [pq] ∧
        pq.start_date = some (now - 7 * 86400) ∧
        pq.groupchat = false ∧
        pq.query.start = some (now - 7 * 86400) ∧
        pq.query.after = none := by
  obtain ⟨c, hc⟩ := get_jid_id_known st.logger own_jid none
    (some JIDConstant.ROOM_TYPE) hknown
  have hrun : request_archive_on_signin st own_jid now config = .ok
      { logger := { st.logger with jid_cache := c }
        mam_query_ids := dictSet st.mam_query_ids own_jid st.an_id
        catch_up_finished := st.catch_up_finished.erase own_jid
        pending := st.pending ++
          [{ query := mkQuery st.an_id none (some (now - 7 * 86400)) none
             query_id := st.an_id
             start_date := some (now - 7 * 86400)
             groupchat := false }]
        an_id := st.an_id + 1 } := by
    unfold request_archive_on_signin get_archive_infos get_query_id
      send_archive_query
    simp only [hguard, Bool.false_eq_true, if_false, ite_false]
    rw [hc]
    simp only [exceptBind_ok]
    rw [harchive]
    simp only [pure_bind, Option.elim_none, hconfig, Bool.false_eq_true,
      if_false, ite_false]
    rfl
  exact ⟨_, hrun, _, rfl, rfl, rfl, rfl, rfl⟩

/-- C5 (amended): the oldest-synced timestamp is persisted on completion
exactly when the completing response itself carries a bootstrap start date
for a non-group-chat scope.  The sign-in bootstrap records now minus 7 days
as that start date, and a single-page bootstrap completion therefore
persists it together with the final cursor; but a continuation page never
carries a start date (and never touches the oldest-synced timestamp), so
no other completion case — group chats, cursor-resumed syncs, or a
bootstrap that needed more than one page — persists it. -/
theorem oldest_timestamp_persistence (st : MAMState) (own_jid : String)
    (from_ : Option String) (now : Int)
    (hknown : jidKnown st.logger (from_.getD own_jid))
    (hinflight : (st.mam_query_ids.find?
      (fun q => q.1 = from_.getD own_jid)).isSome) :
    (∀ (l : String) (d : Int), ∃ st',
      result_finished st own_jid
        { valid := true, from_ := from_, last := some l, complete := true }
        (some d) false now = .ok st' ∧
      archiveOldest st'.logger (from_.getD own_jid) = some d ∧
      archiveCursor st'.logger (from_.getD own_jid) = some l ∧
      st'.catch_up_finished
        = st.catch_up_finished ++ [from_.getD own_jid]) ∧
    (∀ (l : String) (sd : Option Int) (g : Bool), sd = none ∨ g = true →
      ∃ st', result_finished st own_jid
        { valid := true, from_ := from_, last := some l, complete := true }
        sd g now = .ok st' ∧
      archiveOldest st'.logger (from_.getD own_jid)
        = archiveOldest st.logger (from_.getD own_jid)) ∧
    (∀ (l : String) (sd : Option Int) (g : Bool), ∃ st',
      result_finished st own_jid
        { valid := true, from_ := from_, last := some l, complete := false }
        sd g now = .ok st' ∧
      archiveOldest st'.logger (from_.getD own_jid)
        = archiveOldest st.logger (from_.getD own_jid)) ∧
    (∀ config : Option String,
      jidKnown st.logger own_jid →
      (st.mam_query_ids.find?
        (fun q => q.1 = own_jid)).isSome = false →
      st.logger.archive.find?
        (fun r => r.jid_id = (resolvedId st.logger own_jid).getD 0)
          = none →
      truthyStr config = false →
      ∃ st', request_archive_on_signin st own_jid now config = .ok st' ∧
        ∃ pq : PendingQuery, st'.pending = st.pending ++ [pq] ∧
          pq.start_date = some (now - 7 * 86400) ∧ pq.groupchat = false) := by
  refine ⟨?_, ?_, ?_, ?_⟩
  · intro l d
    obtain ⟨st', hrun, hcur, hcatch, hset, _⟩ :=
      result_finished_complete st own_jid from_ l (some d) false now hknown
        hinflight
    exact ⟨st', hrun, hset d rfl rfl, hcur, hcatch⟩
  · intro l sd g hcase
    obtain ⟨st', hrun, _, _, _, hpres⟩ :=
      result_finished_complete st own_jid from_ l sd g now hknown hinflight
    exact ⟨st', hrun, hpres hcase⟩
  · intro l sd g
    obtain ⟨st', hrun, _, _, _, _, hpres⟩ :=
      result_finished_page st own_jid from_ l sd g now hknown hinflight
    exact ⟨st', hrun, hpres⟩
  · intro config hknown2 hguard harchive hconfig
    obtain ⟨st', hrun, pq, hp, hsd, hg, _⟩ :=
      signin_bootstrap st own_jid now config hguard hknown2 harchive hconfig
    exact ⟨st', hrun, pq, hp, hsd, hg⟩

/-- Witness for the oldest-timestamp theorem at the concrete in-flight
store. -/
theorem oldest_timestamp_persistence_witness :
    jidKnown mamDupState.logger ((none : Option String).getD "acc@s") ∧
    (mamDupState.mam_query_ids.find?
      (fun q => q.1 = (none : Option String).getD "acc@s")).isSome = true ∧
    ((∀ (l : String) (d : Int), ∃ st',
      result_finished mamDupState "acc@s"
        { valid := true, from_ := none, last := some l, complete := true }
        (some d) false 999 = .ok st' ∧
      archiveOldest st'.logger ((none : Option String).getD "acc@s")
        = some d ∧
      archiveCursor st'.logger ((none : Option String).getD "acc@s")
        = some l ∧
      st'.catch_up_finished = mamDupState.catch_up_finished
        ++ [(none : Option String).getD "acc@s"]) ∧
    (∀ (l : String) (sd : Option Int) (g : Bool), sd = none ∨ g = true →
      ∃ st', result_finished mamDupState "acc@s"
        { valid := true, from_ := none, last := some l, complete := true }
        sd g 999 = .ok st' ∧
      archiveOldest st'.logger ((none : Option String).getD "acc@s")
        = archiveOldest mamDupState.logger
            ((none : Option String).getD "acc@s")) ∧
    (∀ (l : String) (sd : Option Int) (g : Bool), ∃ st',
      result_finished mamDupState "acc@s"
        { valid := true, from_ := none, last := some l, complete := false }
        sd g 999 = .ok st' ∧
      archiveOldest st'.logger ((none : Option String).getD "acc@s")
        = archiveOldest mamDupState.logger
            ((none : Option String).getD "acc@s")) ∧
    (∀ config : Option String,
      jidKnown mamDupState.logger "acc@s" →
      (mamDupState.mam_query_ids.find?
        (fun q => q.1 = "acc@s")).isSome = false →
      mamDupState.logger.archive.find?
        (fun r => r.jid_id
          = (resolvedId mamDupState.logger "acc@s").getD 0) = none →
      truthyStr config = false →
      ∃ st', request_archive_on_signin mamDupState "acc@s" 999 config
          = .ok st' ∧
        ∃ pq : PendingQuery, st'.pending = mamDupState.pending ++ [pq] ∧
          pq.start_date = some (999 - 7 * 86400) ∧ pq.groupchat = false)) :=
  ⟨by decide, by decide,
   oldest_timestamp_persistence mamDupState "acc@s" none 999 (by decide)
     (by decide)⟩

/-- A fresh MAM module state: the account jid acc@s is known, no checkpoint
rows, no queries in flight. -/
def freshMamState : MAMState :=
  { logger := { jid_cache := [("acc@s", ⟨1, "acc@s", .NORMAL_TYPE⟩)]
                jids := [⟨1, "acc@s", .NORMAL_TYPE⟩]
                next_jid_id := 2
                logs := []
                next_log_line_id := 1
                unread := []
                archive := [] }
    mam_query_ids := []
    catch_up_finished := []
    pending := []
    an_id := 5 }

/-- C5 counterexample: a first-run personal-archive bootstrap that needs two
pages.  Sign-in issues the bootstrap query carrying start date now − 7 days;
the first response is incomplete, and the continuation query is sent with no
start date; the second response completes the sync (the scope is caught up,
the final cursor c2 is stored) — yet oldest_mam_timestamp was never
persisted, contradicting the claim that every completed first-run bootstrap
persists it. -/
theorem bootstrap_paging_drops_oldest :
    ∃ st1 st2 st3,
      request_archive_on_signin freshMamState "acc@s" 1000000 none
        = .ok st1 ∧
      (∃ pq, st1.pending = [pq] ∧
        pq.start_date = some (1000000 - 7 * 86400) ∧
        pq.groupchat = false) ∧
      deliver st1 "acc@s"
        { valid := true, from_ := none, last := some "c1",
          complete := false } 1000000 = .ok st2 ∧
      deliver st2 "acc@s"
        { valid := true, from_ := none, last := some "c2",
          complete := true } 1000000 = .ok st3 ∧
      st3.catch_up_finished = ["acc@s"] ∧
      archiveOldest st3.logger "acc@s" = none ∧
      archiveCursor st3.logger "acc@s" = some "c2" := by
  refine ⟨_, _, _, rfl, ⟨_, rfl, rfl, rfl⟩, rfl, rfl, rfl, rfl, rfl⟩

/-- A MAM module state with a room archive (checkpoint cursor old-cursor,
no-threshold sync policy) and a query with id 5 already in flight for that
room. -/
def roomInflightState : MAMState :=
  { logger := { jid_cache := [("acc@s", ⟨1, "acc@s", .NORMAL_TYPE⟩),
                  ("room@c", ⟨2, "room@c", .ROOM_TYPE⟩)]
                jids := [⟨1, "acc@s", .NORMAL_TYPE⟩,
                  ⟨2, "room@c", .ROOM_TYPE⟩]
                next_jid_id := 3
                logs := []
                next_log_line_id := 1
                unread := []
                archive := [⟨2, some "old-cursor", none, some 999, some 0⟩] }
    mam_query_ids := [("room@c", 5)]
    catch_up_finished := []
    pending := []
    an_id := 9 }

/-- C6 (amended): the in-flight guard exists only for the sign-in
personal-archive request — when a query for the own jid is already pending
the request returns with the state unchanged and no query is issued; the
room-join request has no such guard: with a query (id 5) already in flight
for the room it still issues a new query and replaces the stored query id
with the fresh one (id 9). -/
theorem inflight_guard (st : MAMState) (own_jid : String) (now : Int)
    (config : Option String)
    (hinflight : (st.mam_query_ids.find?
      (fun q => q.1 = own_jid)).isSome = true) :
    request_archive_on_signin st own_jid now config = .ok st ∧
    (∃ st', request_archive_on_muc_join roomInflightState "room@c" 2000 3
        = .ok st' ∧
      st'.pending.length = roomInflightState.pending.length + 1 ∧
      st'.mam_query_ids.find? (fun q => q.1 = "room@c")
        = some ("room@c", 9)) := by
  constructor
  · unfold request_archive_on_signin
    rw [if_pos hinflight]
    rfl
  · exact ⟨_, rfl, rfl, rfl⟩

/-- Witness for the in-flight guard theorem at the concrete store with a
registered personal-archive query. -/
theorem inflight_guard_witness :
    (mamDupState.mam_query_ids.find?
      (fun q => q.1 = "acc@s")).isSome = true ∧
    (request_archive_on_signin mamDupState "acc@s" 999 none
        = .ok mamDupState ∧
    (∃ st', request_archive_on_muc_join roomInflightState "room@c" 2000 3
        = .ok st' ∧
      st'.pending.length = roomInflightState.pending.length + 1 ∧
      st'.mam_query_ids.find? (fun q => q.1 = "room@c")
        = some ("room@c", 9))) :=
  ⟨by decide, inflight_guard mamDupState "acc@s" 999 none (by decide)⟩

/-- C6 counterexample: a room-join request for a scope that already has an
in-flight query (id 5) is not rejected: a second query is issued (the
pending list grows from empty to one) and the stored in-flight query id is
replaced by the fresh id 9. -/
theorem muc_join_ignores_inflight_guard :
    roomInflightState.mam_query_ids.find? (fun q => q.1 = "room@c")
      = some ("room@c", 5) ∧
    ∃ st', request_archive_on_muc_join roomInflightState "room@c" 2000 3
        = .ok st' ∧
      st'.pending.length = 1 ∧
      st'.mam_query_ids.find? (fun q => q.1 = "room@c")
        = some ("room@c", 9) := by
  exact ⟨rfl, _, rfl, rfl, rfl⟩

/-- An archived direct-chat self message (account writing to itself) that
carries an archive stanza-id but no client origin-id. -/
def pSelf : MsgProps :=
  { is_mam_message := true
    is_groupchat := false
    is_self_message := true
    is_muc_pm := false
    from_bare := "acc@s"
    mam_archive := "acc@s"
    mam_id := some "SIDX"
    id := none
    mam_ns := .v2
    mam_timestamp := 1005
    body := some "note to self"
    is_encrypted := false
    eme := none
    jid_stripped := "acc@s"
    muc_nickname := none
    mam_query_id := 7 }

/-- Witness for the self-message theorem at the concrete store and a
concrete self message lacking an origin-id. -/
theorem self_message_handling_witness :
    pSelf.is_self_message = true ∧ pSelf.is_groupchat = false ∧
    ((pSelf.id = none → ∀ o st',
      mam_message_received mamDupState "acc@s" "acc@s" pSelf = .ok (o, st') →
      (∀ rid, o ≠ .inserted rid) ∧
      st'.logger.logs = mamDupState.logger.logs) ∧
    (∀ x, mam_message_received mamDupState "acc@s" "acc@s" pSelf
      = mam_message_received mamDupState "acc@s" "acc@s"
          { pSelf with mam_id := x })) :=
  ⟨rfl, rfl,
   self_message_handling mamDupState "acc@s" "acc@s" pSelf rfl rfl⟩
